import Mathlib

/-!
# ascii-ray-marching: the scene SDF evaluator and the colour classifier

A shallow embedding of `src/main.cpp`.  The C++ `float` is idealised as an
arbitrary linearly ordered field `α` (exact arithmetic, no rounding); the
`<cmath>` functions `sqrt`, `cos` and `sin` are parameters of every definition
that calls them, and are instantiated with `Real.sqrt`, `Real.cos`, `Real.sin`
where a theorem needs their values.  The header `vector.hpp` is not part of the
sources; its vector types are modelled from the specification's data model.

Where the truth of a property depends on rounding, the scene and the marching
loop are evaluated a second time on binary32 values (`f32`, every operation
rounded to nearest, ties to even).
-/

namespace RayMarching

variable {α : Type} [LinearOrderedField α]

/-! ## Vector types (header `vector.hpp`) -/

/-- Modelled from the spec: the 3-D vector value type `float3` of the missing
header `vector.hpp` ("Point/Vector (ℝ³, ℝ²): immutable value type"). -/
structure float3 (α : Type) where
  x : α
  y : α
  z : α

/-- Modelled from the spec: the 2-D vector value type `float2` of the missing
header `vector.hpp`. -/
structure float2 (α : Type) where
  x : α
  y : α

/-- Modelled from the spec: the 3×3 matrix type `mat3` of the missing header
`vector.hpp`, built from three row vectors. -/
structure mat3 (α : Type) where
  r0 : float3 α
  r1 : float3 α
  r2 : float3 α

/-- Modelled from the spec: vector addition ("supports add"). -/
instance : Add (float3 α) := ⟨fun a b => ⟨a.x + b.x, a.y + b.y, a.z + b.z⟩⟩

/-- Modelled from the spec: vector subtraction ("supports subtract"). -/
instance : Sub (float3 α) := ⟨fun a b => ⟨a.x - b.x, a.y - b.y, a.z - b.z⟩⟩

/-- Modelled from the spec: 2-D vector subtraction. -/
instance : Sub (float2 α) := ⟨fun a b => ⟨a.x - b.x, a.y - b.y⟩⟩

/-- Modelled from the spec: multiplication of a vector by a scalar ("scale"). -/
instance : HMul (float3 α) α (float3 α) := ⟨fun a s => ⟨a.x * s, a.y * s, a.z * s⟩⟩

/-- Modelled from the spec: division of a vector by a scalar. -/
instance : HDiv (float3 α) α (float3 α) := ⟨fun a s => ⟨a.x / s, a.y / s, a.z / s⟩⟩

/-- Modelled from the spec: the converting constructor `float3(s)` of the
missing header, which the source uses as `float3(0.0)` and when it passes the
scalar `cube2_radius` for a `float3 scale`. -/
def float3.splat (s : α) : float3 α := ⟨s, s, s⟩

/-- Modelled from the spec: the converting constructor `float2(s)`. -/
def float2.splat (s : α) : float2 α := ⟨s, s⟩

/-- Modelled from the spec: `v.abs()`, the per-component absolute value. -/
def float3.abs (v : float3 α) : float3 α := ⟨|v.x|, |v.y|, |v.z|⟩

/-- Modelled from the spec: `v.xy()`, the first two components. -/
def float3.xy (v : float3 α) : float2 α := ⟨v.x, v.y⟩

/-- Modelled from the spec: `max(v, w)` on `float3`, the componentwise maximum
with another vector. -/
def float3.max (v w : float3 α) : float3 α := ⟨Max.max v.x w.x, Max.max v.y w.y, Max.max v.z w.z⟩

/-- Modelled from the spec: `max(v, w)` on `float2`. -/
def float2.max (v w : float2 α) : float2 α := ⟨Max.max v.x w.x, Max.max v.y w.y⟩

/-- Modelled from the spec: `length(v)` / `v.length()` on `float3`, the
"dot-derived length" `sqrt(v·v)`. -/
def float3.length (sqrt : α → α) (v : float3 α) : α := sqrt (v.x * v.x + v.y * v.y + v.z * v.z)

/-- Modelled from the spec: `length(v)` on `float2`. -/
def float2.length (sqrt : α → α) (v : float2 α) : α := sqrt (v.x * v.x + v.y * v.y)

/-- Modelled from the spec: `m * v`, the application of a matrix to a vector
(each row dotted with the vector). -/
def mat3.mulVec (m : mat3 α) (v : float3 α) : float3 α :=
  ⟨m.r0.x * v.x + m.r0.y * v.y + m.r0.z * v.z,
   m.r1.x * v.x + m.r1.y * v.y + m.r1.z * v.z,
   m.r2.x * v.x + m.r2.y * v.y + m.r2.z * v.z⟩

/-- Modelled from the spec: `rgb(r, g, b)` of the missing header, a colour as a
vector with components in `0..255` ("color: Vector3[0..255]"). -/
def rgb (r g b : α) : float3 α := ⟨r, g, b⟩

/-! ## Primitive signed distance functions -/

/-- The function `SDF_sphere`: `(pos - center).length() - radius`. -/
def SDF_sphere (sqrt : α → α) (pos center : float3 α) (radius : α) : α :=
  float3.length sqrt (pos - center) - radius

/-- The enumeration `face`. -/
inductive face where
  | X_POS
  | X_NEG
  | Y_POS
  | Y_NEG
  | Z_POS
  | Z_NEG
  deriving DecidableEq, Repr

/-- The integer value `(int)f` of an enumerator. -/
def face.toInt : face → Int
  | .X_POS => 0
  | .X_NEG => 1
  | .Y_POS => 2
  | .Y_NEG => 3
  | .Z_POS => 4
  | .Z_NEG => 5

/-- The function `face2rgb`: the switch over `((int)f + offset) % 6`, with the
C++ remainder that truncates towards zero and the fall-through `rgb(0,0,0)`. -/
def face2rgb (f : face) (offset : Int) : float3 α :=
  let k := Int.tmod (f.toInt + offset) 6
  if k = 0 then rgb 255 0 0
  else if k = 1 then rgb 0 255 0
  else if k = 2 then rgb 0 0 255
  else if k = 3 then rgb 255 255 0
  else if k = 4 then rgb 255 0 255
  else if k = 5 then rgb 0 255 255
  else rgb 0 0 0

/-- The struct `cube_info`. -/
structure cube_info (α : Type) where
  distance : α
  closest_face : face

/-- The function `SDF_cube` (the "shadertoy version" that the source keeps). -/
def SDF_cube (sqrt : α → α) (pos center scale : float3 α) : cube_info α :=
  let d : float3 α := (pos.abs - center.abs) - (scale / (2 : α))
  let insideDistance := min (max d.x (max d.y d.z)) 0
  let outsideDistance := float3.length sqrt (float3.max d (float3.splat 0))
  let closest_face :=
    if d.x > d.y ∧ d.x > d.z then
      (if pos.x > 0 then face.X_POS else face.X_NEG)
    else if d.y > d.x ∧ d.y > d.z then
      (if pos.y > 0 then face.Y_POS else face.Y_NEG)
    else
      (if pos.z > 0 then face.Z_POS else face.Z_NEG)
  ⟨insideDistance + outsideDistance, closest_face⟩

/-- The function `SDF_cylinder`. -/
def SDF_cylinder (sqrt : α → α) (p center : float3 α) (h r : α) : α :=
  let inOutRadius := float2.length sqrt (p.xy - center.xy) - r
  let inOutHeight := |p.z - center.z| - h / 2
  let insideDistance := min (max inOutRadius inOutHeight) 0
  let outsideDistance :=
    float2.length sqrt (float2.max ⟨inOutRadius, inOutHeight⟩ (float2.splat 0))
  insideDistance + outsideDistance

/-! ## Boolean composition operators -/

/-- The function `SDF_union`: `std::min(a, b)`. -/
def SDF_union (a b : α) : α := min a b

/-- The function `SDF_intersection`: `std::max(a, b)`. -/
def SDF_intersection (a b : α) : α := max a b

/-- The function `SDF_difference`: `std::max(a, -b)`. -/
def SDF_difference (a b : α) : α := max a (-b)

/-! ## Rotations -/

/-- The function `rotateX`. -/
def rotateX (cos sin : α → α) (theta : α) : mat3 α :=
  let c := cos theta
  let s := sin theta
  ⟨⟨1, 0, 0⟩, ⟨0, c, -s⟩, ⟨0, s, c⟩⟩

/-- The function `rotateY`. -/
def rotateY (cos sin : α → α) (theta : α) : mat3 α :=
  let c := cos theta
  let s := sin theta
  ⟨⟨c, 0, s⟩, ⟨0, 1, 0⟩, ⟨-s, 0, c⟩⟩

/-! ## The scene -/

/-- The struct `SDF_result`. -/
structure SDF_result (α : Type) where
  distance : α
  color : float3 α

/-- The local variables of `SDF_scene`, one field per assignment: `d` and
`color_final` are assigned several times in the source, and the field with
suffix `k` is the value after the `k`-th primitive has been combined. -/
structure scene_locals (α : Type) where
  rotated_pos : float3 α
  rotated_pos_alt : float3 α
  cube_d : α
  color_cube : float3 α
  sphere_d : α
  color1 : float3 α
  d1 : α
  cylinder_d : α
  d2 : α
  color2 : float3 α
  cube2_d : α
  cube2_color : float3 α
  tmp_d : α
  color3 : float3 α
  d3 : α
  sphere2_d : α
  color4 : float3 α
  d4 : α
  sphere3_d : α
  color5 : float3 α
  d5 : α

/-- The body of `SDF_scene`, statement by statement, keeping every local. -/
def SDF_scene_locals (sqrt cos sin : α → α) (pos : float3 α) (time : α) : scene_locals α :=
  let rotated_pos0 := (rotateY cos sin (-time)).mulVec pos
  let rotated_pos := (rotateX cos sin (-time)).mulVec rotated_pos0
  let rotated_pos_alt0 := (rotateY cos sin (time / 2)).mulVec pos
  let rotated_pos_alt := (rotateX cos sin (time / 2)).mulVec rotated_pos_alt0
  let cube_center : float3 α := ⟨0, 0, 0⟩
  let cube_scale : float3 α := ⟨2, 2, 2⟩
  let info := SDF_cube sqrt rotated_pos cube_center cube_scale
  let cube_d := info.distance
  let color_cube : float3 α := face2rgb info.closest_face 0
  let sphere_center : float3 α := ⟨0, 0, 0⟩
  let sphere_radius : α := 1.2
  let sphere_color : float3 α := rgb 70 80 230
  let sphere_d := SDF_sphere sqrt pos sphere_center sphere_radius
  let color1 := if cube_d < -sphere_d then sphere_color else color_cube
  let d1 := SDF_difference cube_d sphere_d
  let cylinder_center : float3 α := ⟨0, 0, 0⟩
  let cylinder_height : α := 2.0
  let cylinder_radius : α := 0.3
  let cylinder_color : float3 α := rgb 70 230 80
  let cylinder_d := SDF_cylinder sqrt rotated_pos cylinder_center cylinder_height cylinder_radius
  let d2 := SDF_union (SDF_intersection cylinder_d (-cube_d)) d1
  let color2 := if cylinder_d < cube_d then cylinder_color else color1
  let cube2_center : float3 α := ⟨0, 0, 0⟩
  let cube2_radius : α := 0.7
  let info2 := SDF_cube sqrt rotated_pos_alt cube2_center (float3.splat cube2_radius)
  let cube2_d := info2.distance
  let cube2_color : float3 α := face2rgb info2.closest_face 2
  let tmp_d := SDF_difference cube2_d cylinder_d
  let color3 := if tmp_d < d2 then cube2_color else color2
  let d3 := SDF_union d2 cube2_d
  let sphere2_center : float3 α := ⟨0, 0, 2⟩
  let sphere2_radius : α := 0.3
  let sphere2_color : float3 α := rgb 0 255 255
  let sphere2_d := SDF_sphere sqrt rotated_pos sphere2_center sphere2_radius
  let color4 := if sphere2_d < d3 then sphere2_color else color3
  let d4 := SDF_union d3 sphere2_d
  let sphere3_center : float3 α := ⟨0, 0, -2⟩
  let sphere3_radius : α := 0.3
  let sphere3_color : float3 α := rgb 255 0 255
  let sphere3_d := SDF_sphere sqrt rotated_pos sphere3_center sphere3_radius
  let color5 := if sphere3_d < d4 then sphere3_color else color4
  let d5 := SDF_union d4 sphere3_d
  { rotated_pos := rotated_pos, rotated_pos_alt := rotated_pos_alt,
    cube_d := cube_d, color_cube := color_cube, sphere_d := sphere_d,
    color1 := color1, d1 := d1, cylinder_d := cylinder_d, d2 := d2, color2 := color2,
    cube2_d := cube2_d, cube2_color := cube2_color, tmp_d := tmp_d,
    color3 := color3, d3 := d3, sphere2_d := sphere2_d, color4 := color4, d4 := d4,
    sphere3_d := sphere3_d, color5 := color5, d5 := d5 }

/-- The function `SDF_scene`: it returns `{d, color_final}`. -/
def SDF_scene (sqrt cos sin : α → α) (pos : float3 α) (time : α) : SDF_result α :=
  let L := SDF_scene_locals sqrt cos sin pos time
  ⟨L.d5, L.color5⟩

/-! ## The colour classifier -/

/-- The struct `term_color`; the `short` colour id is an integer. -/
structure term_color (α : Type) where
  rgb_color : float3 α
  curses_color : Int

/-- The colour id `COLOR_BLACK` of `<ncurses.h>`. -/
def COLOR_BLACK : Int := 0

/-- The colour id `COLOR_RED` of `<ncurses.h>`. -/
def COLOR_RED : Int := 1

/-- The colour id `COLOR_GREEN` of `<ncurses.h>`. -/
def COLOR_GREEN : Int := 2

/-- The colour id `COLOR_YELLOW` of `<ncurses.h>`. -/
def COLOR_YELLOW : Int := 3

/-- The colour id `COLOR_BLUE` of `<ncurses.h>`. -/
def COLOR_BLUE : Int := 4

/-- The colour id `COLOR_MAGENTA` of `<ncurses.h>`. -/
def COLOR_MAGENTA : Int := 5

/-- The colour id `COLOR_CYAN` of `<ncurses.h>`. -/
def COLOR_CYAN : Int := 6

/-- The colour id `COLOR_WHITE` of `<ncurses.h>`. -/
def COLOR_WHITE : Int := 7

/-- The macro `COLOR_LIGHT_BLACK`. -/
def COLOR_LIGHT_BLACK : Int := 8

/-- The macro `COLOR_LIGHT_RED`. -/
def COLOR_LIGHT_RED : Int := 9

/-- The macro `COLOR_LIGHT_GREEN`. -/
def COLOR_LIGHT_GREEN : Int := 10

/-- The macro `COLOR_LIGHT_YELLOW`. -/
def COLOR_LIGHT_YELLOW : Int := 11

/-- The macro `COLOR_LIGHT_BLUE`. -/
def COLOR_LIGHT_BLUE : Int := 12

/-- The macro `COLOR_LIGHT_MAGENTA`. -/
def COLOR_LIGHT_MAGENTA : Int := 13

/-- The macro `COLOR_LIGHT_CYAN`. -/
def COLOR_LIGHT_CYAN : Int := 14

/-- The macro `COLOR_LIGHT_WHITE`. -/
def COLOR_LIGHT_WHITE : Int := 15

/-- The table `palette`, in the order of the source. -/
def palette : List (term_color α) :=
  [ ⟨rgb 12 12 12, COLOR_BLACK⟩,
    ⟨rgb 255 0 0, COLOR_RED⟩,
    ⟨rgb 0 255 0, COLOR_GREEN⟩,
    ⟨rgb 255 255 0, COLOR_YELLOW⟩,
    ⟨rgb 0 0 255, COLOR_BLUE⟩,
    ⟨rgb 255 0 255, COLOR_MAGENTA⟩,
    ⟨rgb 0 255 255, COLOR_CYAN⟩,
    ⟨rgb 230 230 230, COLOR_WHITE⟩,
    ⟨rgb 127 127 127, COLOR_LIGHT_BLACK⟩,
    ⟨rgb 230 70 80, COLOR_LIGHT_RED⟩,
    ⟨rgb 70 230 80, COLOR_LIGHT_GREEN⟩,
    ⟨rgb 230 230 80, COLOR_LIGHT_YELLOW⟩,
    ⟨rgb 70 80 230, COLOR_LIGHT_BLUE⟩,
    ⟨rgb 230 70 230, COLOR_LIGHT_MAGENTA⟩,
    ⟨rgb 70 230 230, COLOR_LIGHT_CYAN⟩,
    ⟨rgb 255 255 255, COLOR_LIGHT_WHITE⟩ ]

/-- The distance `(rgb - palette[i].rgb_color).length()` that `get_color`
computes for one palette entry. -/
def palette_dist (sqrt : α → α) (c : float3 α) (e : term_color α) : α :=
  float3.length sqrt (c - e.rgb_color)

/-- One iteration of the loop of `get_color` on the state
`(min_dist, min_color)`. -/
def get_color_step (sqrt : α → α) (c : float3 α) (acc : α × Int) (e : term_color α) :
    α × Int :=
  let dist := palette_dist sqrt c e
  if dist < acc.1 then (dist, e.curses_color) else acc

/-- The loop of `get_color` over a table, from the state `(min_dist, min_color)`. -/
def get_color_loop (sqrt : α → α) (c : float3 α) (table : List (term_color α))
    (acc : α × Int) : α × Int :=
  table.foldl (get_color_step sqrt c) acc

/-- The function `get_color`: the scan of `palette` from `min_dist = 1000000`,
`min_color = 0`. -/
def get_color (sqrt : α → α) (c : float3 α) : Int :=
  (get_color_loop sqrt c palette (1000000, 0)).2

/-- The composition of the six primitive distances in the words of the
specification: "box minus sphere, union (cylinder intersect box-complement),
union small-box-minus-cylinder, union two small spheres". -/
def scene_composition_spec (box sphere cylinder smallBox sphere2 sphere3 : α) : α :=
  SDF_union
    (SDF_union
      (SDF_union
        (SDF_union (SDF_difference box sphere) (SDF_intersection cylinder (-box)))
        (SDF_difference smallBox cylinder))
      sphere2)
    sphere3

/-! ## Glyphs, rotation about Z, and the marching loop -/

/-- The function `rotateZ`. -/
def rotateZ (cos sin : α → α) (theta : α) : mat3 α :=
  let c := cos theta
  let s := sin theta
  ⟨⟨c, -s, 0⟩, ⟨s, c, 0⟩, ⟨0, 0, 1⟩⟩

/-- The matrix of the library that a `mat3` denotes, row by row; it is used to
state orthogonality and the determinant. -/
def mat3.toMatrix (m : mat3 α) : Matrix (Fin 3) (Fin 3) α :=
  !![m.r0.x, m.r0.y, m.r0.z; m.r1.x, m.r1.y, m.r1.z; m.r2.x, m.r2.y, m.r2.z]

/-- The local `d` of `SDF_cube`: `(pos.abs() - center.abs()) - (scale / 2.0)`. -/
def SDF_cube_offset (pos center scale : float3 α) : float3 α :=
  (pos.abs - center.abs) - (scale / (2 : α))

/-- The macro `MAX_MARCHING_STEPS`. -/
def MAX_MARCHING_STEPS : Nat := 50

/-- The macro `MAX_DEPTH`. -/
def MAX_DEPTH : α := 10

/-- The function `depth2char`. -/
def depth2char (depth : α) : Char :=
  let ratio := depth / MAX_DEPTH
  if ratio < 0.3 then '@'
  else if ratio < 0.4 then '#'
  else if ratio < 0.5 then '$'
  else if ratio < 0.55 then '%'
  else if ratio < 0.60 then '&'
  else if ratio < 0.65 then '*'
  else if ratio < 0.75 then '+'
  else if ratio < 0.8 then '-'
  else if ratio < 0.9 then '.'
  else ' '

/-- The glyphs in the order of the specification, from the darkest `@` to the
blank. -/
def glyphs : List Char := ['@', '#', '$', '%', '&', '*', '+', '-', '.', ' ']

/-- The place of a glyph in the darkness order `@ # $ % & * + - .` and blank. -/
def glyph_rank (c : Char) : Nat := glyphs.indexOf c

/-- The ascending thresholds of the specification's glyph table. -/
def glyph_thresholds : List α := [0.30, 0.40, 0.50, 0.55, 0.60, 0.65, 0.75, 0.80, 0.90]

/-- The glyph lookup in the words of the specification: the glyph whose index
is the number of thresholds that are at most `depth / MAX_DEPTH`. -/
def depth2char_table (depth : α) : Char :=
  glyphs.getD ((glyph_thresholds.filter (fun th => th ≤ depth / MAX_DEPTH)).length) ' '

/-- The struct `ray`. -/
structure ray (α : Type) where
  origin : float3 α
  direction : float3 α

/-- The method `ray::marching_step`: `origin = origin + direction * scale`. -/
def ray.marching_step (r : ray α) (scale : α) : ray α :=
  ⟨r.origin + r.direction * scale, r.direction⟩

/-- The variables of the inner loop of `ray_marching` for one pixel: the loop
counter `k`, `depth`, the ray `r`, `color_rgb`, and whether the loop was left by
`break`. -/
structure march_state (α : Type) where
  k : Nat
  depth : α
  r : ray α
  color_rgb : float3 α
  hit : Bool

/-- One execution of the body of the inner loop of `ray_marching`: evaluate the
scene at the ray origin, store the colour, and either `break` (distance below
zero, nothing else changes) or add the distance to `depth`, move the ray and
count the step. -/
def march_body (sqrt cos sin : α → α) (time : α) (s : march_state α) : march_state α :=
  let rslt := SDF_scene sqrt cos sin ⟨s.r.origin.x, s.r.origin.y, s.r.origin.z⟩ time
  let dist := rslt.distance
  if dist < 0 then
    ⟨s.k, s.depth, s.r, rslt.color, true⟩
  else
    ⟨s.k + 1, s.depth + dist, s.r.marching_step dist, rslt.color, false⟩

/-- The inner loop of `ray_marching` with `n` iterations left: it runs the body
until it breaks or the iterations are used up. -/
def march_loop (sqrt cos sin : α → α) (time : α) : Nat → march_state α → march_state α
  | 0, s => s
  | n + 1, s =>
    let s1 := march_body sqrt cos sin time s
    if s1.hit then s1 else march_loop sqrt cos sin time n s1

/-- The variables of the inner loop before its first iteration: `k = 0`,
`depth = 0`, the ray `{cam_pos, dir}` and `color_rgb(0)`. -/
def march_init (cam_pos dir : float3 α) : march_state α :=
  ⟨0, 0, ⟨cam_pos, dir⟩, float3.splat 0, false⟩

/-- The inner loop of `ray_marching` for one pixel: `depth = 0`, the ray
`{cam_pos, dir}`, `color_rgb(0)`, and `MAX_MARCHING_STEPS` iterations. -/
def march_pixel (sqrt cos sin : α → α) (cam_pos dir : float3 α) (time : α) : march_state α :=
  march_loop sqrt cos sin time MAX_MARCHING_STEPS (march_init cam_pos dir)

/-- The point that the marching rule reaches from `p` in one step of the scene
distance, whatever its sign: `p + dir * SDF_scene(p, time).distance`. -/
def march_next (sqrt cos sin : α → α) (dir : float3 α) (time : α) (p : float3 α) : float3 α :=
  p + dir * (SDF_scene sqrt cos sin p time).distance

/-- The `i`-th sample point of the ray from `cam_pos`: `i` steps of
`march_next`. -/
def march_sample (sqrt cos sin : α → α) (cam_pos dir : float3 α) (time : α) (i : Nat) :
    float3 α :=
  (march_next sqrt cos sin dir time)^[i] cam_pos

/-! ## Binary32 arithmetic

The definitions above idealise `float` as an exact ordered field.  The
definitions below repeat the scene and the marching loop with the binary32
operations (every operation rounds to nearest, ties to even), for the properties
whose truth depends on rounding.  A finite binary32 value is stored as the
integer `n` with value `n * 2^-149`; the two zeros are one value, infinities and
NaN are not modelled, and the theorems on this model only evaluate inputs whose
intermediate results stay far inside the finite range.  Where the source mixes
`float` with a `double` literal (`h/2.0`) the inputs that are evaluated give the
same `float` either way. -/

/-- A finite binary32 value `n * 2^-149`. -/
structure f32 where
  n : Int
  deriving DecidableEq, Repr

/-- The number of binary digits of `a`, searched upwards from `L` with `fuel`
steps left. -/
def f32.bitlen_aux (a : Nat) : Nat → Nat → Nat
  | 0, L => L
  | fuel + 1, L => if a < 2 ^ L then L else f32.bitlen_aux a fuel (L + 1)

/-- The number of binary digits of `a` (0 for 0). -/
def f32.bitlen (a : Nat) : Nat := f32.bitlen_aux a a 0

/-- The binary32 value nearest to `N / 2^s` in units of `2^-149`: the magnitude
keeps its 24 leading binary digits (fewer below the normal range), rounded to
nearest, ties to even. -/
def f32.round (N : Int) (s : Nat) : f32 :=
  let a := N.natAbs
  let d := max s (f32.bitlen a - 24)
  let q := a / 2 ^ d
  let r := a % 2 ^ d
  let q1 := if 2 ^ d < 2 * r ∨ (2 * r = 2 ^ d ∧ q % 2 = 1) then q + 1 else q
  let v : Int := ((q1 * 2 ^ (d - s) : Nat) : Int)
  ⟨if N < 0 then -v else v⟩

/-- The integer `k` as a binary32 value (exact for `|k| ≤ 2^24`). -/
def f32.ofInt (k : Int) : f32 := f32.round (k * 2 ^ 149) 0

/-- Integer literals as binary32 values. -/
instance : OfNat f32 k := ⟨f32.ofInt k⟩

/-- Binary32 addition. -/
def f32.add (a b : f32) : f32 := f32.round (a.n + b.n) 0

/-- Binary32 subtraction. -/
def f32.sub (a b : f32) : f32 := f32.round (a.n - b.n) 0

/-- Binary32 multiplication. -/
def f32.mul (a b : f32) : f32 := f32.round (a.n * b.n) 149

/-- Binary32 negation. -/
def f32.neg (a : f32) : f32 := ⟨-a.n⟩

/-- The absolute value of a binary32 value. -/
def f32.abs (a : f32) : f32 := ⟨|a.n|⟩

/-- Binary32 division by a value that is not zero: the quotient is computed to
64 digits beyond the precision, with a sticky last digit for the remainder, and
rounded. -/
def f32.div (a b : f32) : f32 :=
  let A := a.n.natAbs
  let B := b.n.natAbs
  let k := 64 + (f32.bitlen B - f32.bitlen A)
  let q := A * 2 ^ (149 + k) / B
  let sticky := if A * 2 ^ (149 + k) % B = 0 then 0 else 1
  let N : Int := ((2 * q + sticky : Nat) : Int)
  f32.round (if (a.n < 0) = (b.n < 0) then N else -N) (k + 1)

/-- The integer square root of `n`, digit by digit from digit `i` down. -/
def f32.isqrt_aux (n : Nat) : Nat → Nat → Nat
  | 0, r => if (r + 1) * (r + 1) ≤ n then r + 1 else r
  | i + 1, r =>
    f32.isqrt_aux n i (if (r + 2 ^ (i + 1)) * (r + 2 ^ (i + 1)) ≤ n then r + 2 ^ (i + 1) else r)

/-- The integer square root of `n`. -/
def f32.isqrt (n : Nat) : Nat := f32.isqrt_aux n (f32.bitlen n / 2 + 1) 0

/-- The binary32 square root of a value that is not negative, correctly
rounded. -/
def f32.sqrt (a : f32) : f32 :=
  let n := a.n.natAbs * 2 ^ 149
  let r := f32.isqrt n
  let sticky := if r * r = n then 0 else 1
  f32.round ((2 * r + sticky : Nat) : Int) 1

/-- The binary32 value of the decimal literal `num / den`. -/
def f32.lit (num den : Nat) : f32 := f32.div (f32.ofInt num) (f32.ofInt den)

/-- The operator `+` on binary32 values. -/
instance : Add f32 := ⟨f32.add⟩

/-- The operator `-` on binary32 values. -/
instance : Sub f32 := ⟨f32.sub⟩

/-- The operator `*` on binary32 values. -/
instance : Mul f32 := ⟨f32.mul⟩

/-- The operator `/` on binary32 values. -/
instance : Div f32 := ⟨f32.div⟩

/-- The unary minus on binary32 values. -/
instance : Neg f32 := ⟨f32.neg⟩

/-- The comparison `<` of binary32 values. -/
instance : LT f32 := ⟨fun a b => a.n < b.n⟩

/-- The comparison `<` of binary32 values is decided on the integers. -/
instance (a b : f32) : Decidable (a < b) := Int.decLt a.n b.n

/-- The function `std::min` on binary32 values: `(b < a) ? b : a`. -/
def f32.min (a b : f32) : f32 := if b < a then b else a

/-- The function `std::max` on binary32 values: `(a < b) ? b : a`. -/
def f32.max (a b : f32) : f32 := if a < b then b else a

/-- Modelled from the spec: binary32 vector addition, component by component. -/
instance : Add (float3 f32) := ⟨fun a b => ⟨a.x + b.x, a.y + b.y, a.z + b.z⟩⟩

/-- Modelled from the spec: binary32 vector subtraction. -/
instance : Sub (float3 f32) := ⟨fun a b => ⟨a.x - b.x, a.y - b.y, a.z - b.z⟩⟩

/-- Modelled from the spec: binary32 2-D vector subtraction. -/
instance : Sub (float2 f32) := ⟨fun a b => ⟨a.x - b.x, a.y - b.y⟩⟩

/-- Modelled from the spec: a binary32 vector times a scalar. -/
instance : HMul (float3 f32) f32 (float3 f32) := ⟨fun a s => ⟨a.x * s, a.y * s, a.z * s⟩⟩

/-- Modelled from the spec: a binary32 vector divided by a scalar. -/
instance : HDiv (float3 f32) f32 (float3 f32) := ⟨fun a s => ⟨a.x / s, a.y / s, a.z / s⟩⟩

/-- Modelled from the spec: `v.abs()` on binary32 vectors. -/
def float3.abs_f32 (v : float3 f32) : float3 f32 := ⟨v.x.abs, v.y.abs, v.z.abs⟩

/-- Modelled from the spec: `max(v, w)` on binary32 3-D vectors. -/
def float3.max_f32 (v w : float3 f32) : float3 f32 :=
  ⟨f32.max v.x w.x, f32.max v.y w.y, f32.max v.z w.z⟩

/-- Modelled from the spec: `max(v, w)` on binary32 2-D vectors. -/
def float2.max_f32 (v w : float2 f32) : float2 f32 := ⟨f32.max v.x w.x, f32.max v.y w.y⟩

/-- Modelled from the spec: the length of a binary32 3-D vector,
`sqrt(x*x + y*y + z*z)` with every operation rounded. -/
def float3.length_f32 (v : float3 f32) : f32 := f32.sqrt (v.x * v.x + v.y * v.y + v.z * v.z)

/-- Modelled from the spec: the length of a binary32 2-D vector. -/
def float2.length_f32 (v : float2 f32) : f32 := f32.sqrt (v.x * v.x + v.y * v.y)

/-- Modelled from the spec: `m * v` on binary32 values, each row dotted with the
vector. -/
def mat3.mulVec_f32 (m : mat3 f32) (v : float3 f32) : float3 f32 :=
  ⟨m.r0.x * v.x + m.r0.y * v.y + m.r0.z * v.z,
   m.r1.x * v.x + m.r1.y * v.y + m.r1.z * v.z,
   m.r2.x * v.x + m.r2.y * v.y + m.r2.z * v.z⟩

/-- The function `SDF_sphere` on binary32 values. -/
def SDF_sphere_f32 (pos center : float3 f32) (radius : f32) : f32 :=
  float3.length_f32 (pos - center) - radius

/-- The function `face2rgb` with binary32 colour components. -/
def face2rgb_f32 (f : face) (offset : Int) : float3 f32 :=
  let k := Int.tmod (f.toInt + offset) 6
  if k = 0 then ⟨255, 0, 0⟩
  else if k = 1 then ⟨0, 255, 0⟩
  else if k = 2 then ⟨0, 0, 255⟩
  else if k = 3 then ⟨255, 255, 0⟩
  else if k = 4 then ⟨255, 0, 255⟩
  else if k = 5 then ⟨0, 255, 255⟩
  else ⟨0, 0, 0⟩

/-- The function `SDF_cube` on binary32 values. -/
def SDF_cube_f32 (pos center scale : float3 f32) : cube_info f32 :=
  let d : float3 f32 := (pos.abs_f32 - center.abs_f32) - (scale / (2 : f32))
  let insideDistance := f32.min (f32.max d.x (f32.max d.y d.z)) 0
  let outsideDistance := float3.length_f32 (float3.max_f32 d ⟨0, 0, 0⟩)
  let closest_face :=
    if d.x > d.y ∧ d.x > d.z then
      (if pos.x > 0 then face.X_POS else face.X_NEG)
    else if d.y > d.x ∧ d.y > d.z then
      (if pos.y > 0 then face.Y_POS else face.Y_NEG)
    else
      (if pos.z > 0 then face.Z_POS else face.Z_NEG)
  ⟨insideDistance + outsideDistance, closest_face⟩

/-- The function `SDF_cylinder` on binary32 values, with `abs` read as the
floating-point absolute value. -/
def SDF_cylinder_f32 (p center : float3 f32) (h r : f32) : f32 :=
  let inOutRadius := float2.length_f32 ((⟨p.x, p.y⟩ : float2 f32) - ⟨center.x, center.y⟩) - r
  let inOutHeight := (p.z - center.z).abs - h / 2
  let insideDistance := f32.min (f32.max inOutRadius inOutHeight) 0
  let outsideDistance :=
    float2.length_f32 (float2.max_f32 ⟨inOutRadius, inOutHeight⟩ ⟨0, 0⟩)
  insideDistance + outsideDistance

/-- The function `rotateX` on binary32 values. -/
def rotateX_f32 (cos sin : f32 → f32) (theta : f32) : mat3 f32 :=
  let c := cos theta
  let s := sin theta
  ⟨⟨1, 0, 0⟩, ⟨0, c, -s⟩, ⟨0, s, c⟩⟩

/-- The function `rotateY` on binary32 values. -/
def rotateY_f32 (cos sin : f32 → f32) (theta : f32) : mat3 f32 :=
  let c := cos theta
  let s := sin theta
  ⟨⟨c, 0, s⟩, ⟨0, 1, 0⟩, ⟨-s, 0, c⟩⟩

/-- The function `SDF_scene` on binary32 values, statement by statement. -/
def SDF_scene_f32 (cos sin : f32 → f32) (pos : float3 f32) (time : f32) : SDF_result f32 :=
  let rotated_pos0 := (rotateY_f32 cos sin (-time)).mulVec_f32 pos
  let rotated_pos := (rotateX_f32 cos sin (-time)).mulVec_f32 rotated_pos0
  let rotated_pos_alt0 := (rotateY_f32 cos sin (time / 2)).mulVec_f32 pos
  let rotated_pos_alt := (rotateX_f32 cos sin (time / 2)).mulVec_f32 rotated_pos_alt0
  let info := SDF_cube_f32 rotated_pos ⟨0, 0, 0⟩ ⟨2, 2, 2⟩
  let cube_d := info.distance
  let color_cube := face2rgb_f32 info.closest_face 0
  let sphere_d := SDF_sphere_f32 pos ⟨0, 0, 0⟩ (f32.lit 12 10)
  let color1 := if cube_d < -sphere_d then (⟨70, 80, 230⟩ : float3 f32) else color_cube
  let d1 := f32.max cube_d (-sphere_d)
  let cylinder_d := SDF_cylinder_f32 rotated_pos ⟨0, 0, 0⟩ 2 (f32.lit 3 10)
  let d2 := f32.min (f32.max cylinder_d (-cube_d)) d1
  let color2 := if cylinder_d < cube_d then (⟨70, 230, 80⟩ : float3 f32) else color1
  let cube2_radius := f32.lit 7 10
  let info2 := SDF_cube_f32 rotated_pos_alt ⟨0, 0, 0⟩ ⟨cube2_radius, cube2_radius, cube2_radius⟩
  let cube2_d := info2.distance
  let cube2_color := face2rgb_f32 info2.closest_face 2
  let tmp_d := f32.max cube2_d (-cylinder_d)
  let color3 := if tmp_d < d2 then cube2_color else color2
  let d3 := f32.min d2 cube2_d
  let sphere2_d := SDF_sphere_f32 rotated_pos ⟨0, 0, 2⟩ (f32.lit 3 10)
  let color4 := if sphere2_d < d3 then (⟨0, 255, 255⟩ : float3 f32) else color3
  let d4 := f32.min d3 sphere2_d
  let sphere3_d := SDF_sphere_f32 rotated_pos ⟨0, 0, -2⟩ (f32.lit 3 10)
  let color5 := if sphere3_d < d4 then (⟨255, 0, 255⟩ : float3 f32) else color4
  let d5 := f32.min d4 sphere3_d
  ⟨d5, color5⟩

/-- One execution of the body of the inner loop of `ray_marching` on binary32
values. -/
def march_body_f32 (cos sin : f32 → f32) (time : f32) (s : march_state f32) :
    march_state f32 :=
  let rslt := SDF_scene_f32 cos sin ⟨s.r.origin.x, s.r.origin.y, s.r.origin.z⟩ time
  let dist := rslt.distance
  if dist < 0 then
    ⟨s.k, s.depth, s.r, rslt.color, true⟩
  else
    ⟨s.k + 1, s.depth + dist, ⟨s.r.origin + s.r.direction * dist, s.r.direction⟩, rslt.color,
      false⟩

/-- The inner loop of `ray_marching` on binary32 values with `n` iterations
left. -/
def march_loop_f32 (cos sin : f32 → f32) (time : f32) : Nat → march_state f32 → march_state f32
  | 0, s => s
  | n + 1, s =>
    let s1 := march_body_f32 cos sin time s
    if s1.hit then s1 else march_loop_f32 cos sin time n s1

/-- The inner loop of `ray_marching` for one pixel on binary32 values. -/
def march_pixel_f32 (cos sin : f32 → f32) (cam_pos dir : float3 f32) (time : f32) :
    march_state f32 :=
  march_loop_f32 cos sin time MAX_MARCHING_STEPS ⟨0, 0, ⟨cam_pos, dir⟩, ⟨0, 0, 0⟩, false⟩

/-! ## Unfolding lemmas -/

theorem float3_sub_def (a b : float3 α) : a - b = ⟨a.x - b.x, a.y - b.y, a.z - b.z⟩ := rfl

theorem float2_sub_def (a b : float2 α) : a - b = ⟨a.x - b.x, a.y - b.y⟩ := rfl

theorem float3_div_def (a : float3 α) (s : α) : a / s = ⟨a.x / s, a.y / s, a.z / s⟩ := rfl

section Locals

variable (sqrt cos sin : α → α) (p : float3 α) (t : α)

theorem locals_rotated_pos : (SDF_scene_locals sqrt cos sin p t).rotated_pos =
    (rotateX cos sin (-t)).mulVec ((rotateY cos sin (-t)).mulVec p) := rfl

theorem locals_rotated_pos_alt : (SDF_scene_locals sqrt cos sin p t).rotated_pos_alt =
    (rotateX cos sin (t / 2)).mulVec ((rotateY cos sin (t / 2)).mulVec p) := rfl

theorem locals_cube_d : (SDF_scene_locals sqrt cos sin p t).cube_d =
    (SDF_cube sqrt (SDF_scene_locals sqrt cos sin p t).rotated_pos ⟨0, 0, 0⟩ ⟨2, 2, 2⟩).distance :=
  rfl

theorem locals_color_cube : (SDF_scene_locals sqrt cos sin p t).color_cube =
    face2rgb
      (SDF_cube sqrt (SDF_scene_locals sqrt cos sin p t).rotated_pos ⟨0, 0, 0⟩
        ⟨2, 2, 2⟩).closest_face 0 :=
  rfl

theorem locals_sphere_d : (SDF_scene_locals sqrt cos sin p t).sphere_d =
    SDF_sphere sqrt p ⟨0, 0, 0⟩ 1.2 := rfl

theorem locals_cylinder_d : (SDF_scene_locals sqrt cos sin p t).cylinder_d =
    SDF_cylinder sqrt (SDF_scene_locals sqrt cos sin p t).rotated_pos ⟨0, 0, 0⟩ 2.0 0.3 := rfl

theorem locals_cube2_d : (SDF_scene_locals sqrt cos sin p t).cube2_d =
    (SDF_cube sqrt (SDF_scene_locals sqrt cos sin p t).rotated_pos_alt ⟨0, 0, 0⟩
      (float3.splat 0.7)).distance :=
  rfl

theorem locals_cube2_color : (SDF_scene_locals sqrt cos sin p t).cube2_color =
    face2rgb
      (SDF_cube sqrt (SDF_scene_locals sqrt cos sin p t).rotated_pos_alt ⟨0, 0, 0⟩
        (float3.splat 0.7)).closest_face 2 :=
  rfl

theorem locals_sphere2_d : (SDF_scene_locals sqrt cos sin p t).sphere2_d =
    SDF_sphere sqrt (SDF_scene_locals sqrt cos sin p t).rotated_pos ⟨0, 0, 2⟩ 0.3 := rfl

theorem locals_sphere3_d : (SDF_scene_locals sqrt cos sin p t).sphere3_d =
    SDF_sphere sqrt (SDF_scene_locals sqrt cos sin p t).rotated_pos ⟨0, 0, -2⟩ 0.3 := rfl

theorem locals_d1 : (SDF_scene_locals sqrt cos sin p t).d1 =
    max (SDF_scene_locals sqrt cos sin p t).cube_d
      (-(SDF_scene_locals sqrt cos sin p t).sphere_d) := rfl

theorem locals_d2 : (SDF_scene_locals sqrt cos sin p t).d2 =
    min (max (SDF_scene_locals sqrt cos sin p t).cylinder_d
        (-(SDF_scene_locals sqrt cos sin p t).cube_d))
      (SDF_scene_locals sqrt cos sin p t).d1 := rfl

theorem locals_tmp_d : (SDF_scene_locals sqrt cos sin p t).tmp_d =
    max (SDF_scene_locals sqrt cos sin p t).cube2_d
      (-(SDF_scene_locals sqrt cos sin p t).cylinder_d) := rfl

theorem locals_d3 : (SDF_scene_locals sqrt cos sin p t).d3 =
    min (SDF_scene_locals sqrt cos sin p t).d2 (SDF_scene_locals sqrt cos sin p t).cube2_d := rfl

theorem locals_d4 : (SDF_scene_locals sqrt cos sin p t).d4 =
    min (SDF_scene_locals sqrt cos sin p t).d3 (SDF_scene_locals sqrt cos sin p t).sphere2_d :=
  rfl

theorem locals_d5 : (SDF_scene_locals sqrt cos sin p t).d5 =
    min (SDF_scene_locals sqrt cos sin p t).d4 (SDF_scene_locals sqrt cos sin p t).sphere3_d :=
  rfl

theorem locals_color1 : (SDF_scene_locals sqrt cos sin p t).color1 =
    if (SDF_scene_locals sqrt cos sin p t).cube_d < -(SDF_scene_locals sqrt cos sin p t).sphere_d
    then rgb 70 80 230 else (SDF_scene_locals sqrt cos sin p t).color_cube := rfl

theorem locals_color2 : (SDF_scene_locals sqrt cos sin p t).color2 =
    if (SDF_scene_locals sqrt cos sin p t).cylinder_d < (SDF_scene_locals sqrt cos sin p t).cube_d
    then rgb 70 230 80 else (SDF_scene_locals sqrt cos sin p t).color1 := rfl

theorem locals_color3 : (SDF_scene_locals sqrt cos sin p t).color3 =
    if (SDF_scene_locals sqrt cos sin p t).tmp_d < (SDF_scene_locals sqrt cos sin p t).d2
    then (SDF_scene_locals sqrt cos sin p t).cube2_color
    else (SDF_scene_locals sqrt cos sin p t).color2 := rfl

theorem locals_color4 : (SDF_scene_locals sqrt cos sin p t).color4 =
    if (SDF_scene_locals sqrt cos sin p t).sphere2_d < (SDF_scene_locals sqrt cos sin p t).d3
    then rgb 0 255 255 else (SDF_scene_locals sqrt cos sin p t).color3 := rfl

theorem locals_color5 : (SDF_scene_locals sqrt cos sin p t).color5 =
    if (SDF_scene_locals sqrt cos sin p t).sphere3_d < (SDF_scene_locals sqrt cos sin p t).d4
    then rgb 255 0 255 else (SDF_scene_locals sqrt cos sin p t).color4 := rfl

theorem scene_distance : (SDF_scene sqrt cos sin p t).distance =
    (SDF_scene_locals sqrt cos sin p t).d5 := rfl

theorem scene_color : (SDF_scene sqrt cos sin p t).color =
    (SDF_scene_locals sqrt cos sin p t).color5 := rfl

end Locals

/-! ## Evaluation at time 0 in exact real arithmetic -/

/-- At time 0 both rotated frames coincide with the world frame. -/
theorem locals_frames_time_zero (p : float3 ℝ) :
    (SDF_scene_locals Real.sqrt Real.cos Real.sin p 0).rotated_pos = p ∧
    (SDF_scene_locals Real.sqrt Real.cos Real.sin p 0).rotated_pos_alt = p := by
  cases p
  constructor <;>
    simp [locals_rotated_pos, locals_rotated_pos_alt, rotateX, rotateY, mat3.mulVec]

/-- The length of a vector on the z axis, in exact arithmetic. -/
theorem float3_length_z_axis (z : ℝ) : float3.length Real.sqrt ⟨0, 0, z⟩ = |z| := by
  simp [float3.length, Real.sqrt_mul_self_eq_abs]

/-- The length of a 2-D vector on the second axis, in exact arithmetic. -/
theorem float2_length_y_axis (y : ℝ) : float2.length Real.sqrt ⟨0, y⟩ = |y| := by
  simp [float2.length, Real.sqrt_mul_self_eq_abs]

/-- A box centred at the origin with equal sides `s`, seen from the z axis:
the distance is `|z| - s/2` inside and outside. -/
theorem cube_z_axis (s z : ℝ) (hs : 0 ≤ s) :
    (SDF_cube Real.sqrt ⟨0, 0, z⟩ ⟨0, 0, 0⟩ ⟨s, s, s⟩).distance = |z| - s / 2 := by
  have h0 := abs_nonneg z
  simp only [SDF_cube, float3.abs, float3_sub_def, float3_div_def, float3.max, float3.splat,
    abs_zero, sub_zero, zero_sub]
  rw [max_eq_right (show -(s / 2) ≤ |z| - s / 2 by linarith),
    max_eq_right (show -(s / 2) ≤ |z| - s / 2 by linarith),
    max_eq_right (show -(s / 2) ≤ (0 : ℝ) by linarith), float3_length_z_axis,
    abs_of_nonneg (le_max_right (|z| - s / 2) 0), min_add_max]
  simp

/-- The nearest face that `SDF_cube` reports on the z axis is a z face. -/
theorem cube_face_z_axis (s z : ℝ) :
    (SDF_cube Real.sqrt ⟨0, 0, z⟩ ⟨0, 0, 0⟩ ⟨s, s, s⟩).closest_face =
      if z > 0 then face.Z_POS else face.Z_NEG := by
  simp [SDF_cube, float3.abs, float3_sub_def, float3_div_def]

/-- The cylinder of the scene seen from the z axis. -/
theorem cylinder_z_axis (z : ℝ) :
    SDF_cylinder Real.sqrt ⟨0, 0, z⟩ ⟨0, 0, 0⟩ 2.0 0.3 = max (-0.3) (|z| - 1) := by
  simp only [SDF_cylinder, float3.xy, float2_sub_def, float2.max, float2.splat, sub_zero]
  have hl : float2.length Real.sqrt ⟨0, 0⟩ = 0 := by simp [float2.length]
  rw [hl, zero_sub, show (2.0 : ℝ) / 2 = 1 by norm_num,
    max_eq_right (show -(0.3 : ℝ) ≤ 0 by norm_num), float2_length_y_axis,
    abs_of_nonneg (le_max_right (|z| - 1) 0)]
  rcases le_total (|z| - 1) 0 with h | h
  · rw [max_eq_right h, add_zero, min_eq_left (max_le (by norm_num) h)]
  · rw [max_eq_left h, min_eq_right (le_max_of_le_right h), zero_add,
      max_eq_right (le_trans (by norm_num) h)]

/-- The six primitive distances of the scene at a point `(0,0,z)` of the z axis
at time 0. -/
theorem locals_z_axis (z : ℝ) :
    (SDF_scene_locals Real.sqrt Real.cos Real.sin ⟨0, 0, z⟩ 0).cube_d = |z| - 1 ∧
    (SDF_scene_locals Real.sqrt Real.cos Real.sin ⟨0, 0, z⟩ 0).sphere_d = |z| - 1.2 ∧
    (SDF_scene_locals Real.sqrt Real.cos Real.sin ⟨0, 0, z⟩ 0).cylinder_d =
      max (-0.3) (|z| - 1) ∧
    (SDF_scene_locals Real.sqrt Real.cos Real.sin ⟨0, 0, z⟩ 0).cube2_d = |z| - 0.35 ∧
    (SDF_scene_locals Real.sqrt Real.cos Real.sin ⟨0, 0, z⟩ 0).sphere2_d = |z - 2| - 0.3 ∧
    (SDF_scene_locals Real.sqrt Real.cos Real.sin ⟨0, 0, z⟩ 0).sphere3_d = |z + 2| - 0.3 := by
  obtain ⟨h1, h2⟩ := locals_frames_time_zero ⟨0, 0, z⟩
  rw [locals_cube_d, locals_sphere_d, locals_cylinder_d, locals_cube2_d, locals_sphere2_d,
    locals_sphere3_d, h1, h2, cylinder_z_axis, cube_z_axis 2 z (by norm_num), float3.splat,
    cube_z_axis 0.7 z (by norm_num)]
  refine ⟨by norm_num, ?_, rfl, by norm_num, ?_, ?_⟩ <;>
    simp [SDF_sphere, float3_sub_def, float3_length_z_axis]

/-- The face colours that the scene computes on the z axis at time 0. -/
theorem locals_z_axis_colors (z : ℝ) :
    (SDF_scene_locals Real.sqrt Real.cos Real.sin ⟨0, 0, z⟩ 0).color_cube =
      face2rgb (if z > 0 then face.Z_POS else face.Z_NEG) 0 ∧
    (SDF_scene_locals Real.sqrt Real.cos Real.sin ⟨0, 0, z⟩ 0).cube2_color =
      face2rgb (if z > 0 then face.Z_POS else face.Z_NEG) 2 := by
  obtain ⟨h1, h2⟩ := locals_frames_time_zero ⟨0, 0, z⟩
  rw [locals_color_cube, locals_cube2_color, h1, h2, float3.splat, cube_face_z_axis,
    cube_face_z_axis]
  exact ⟨rfl, rfl⟩

/-- The scene distance on the z axis at time 0, as a function of `z`. -/
theorem scene_distance_z_axis (z : ℝ) :
    (SDF_scene Real.sqrt Real.cos Real.sin ⟨0, 0, z⟩ 0).distance =
      min (min (min (min (max (max (-0.3) (|z| - 1)) (-(|z| - 1)))
        (max (|z| - 1) (-(|z| - 1.2)))) (|z| - 0.35)) (|z - 2| - 0.3)) (|z + 2| - 0.3) := by
  obtain ⟨h1, h2, h3, h4, h5, h6⟩ := locals_z_axis z
  rw [scene_distance, locals_d5, locals_d4, locals_d3, locals_d2, locals_d1, h1, h2, h3, h4,
    h5, h6]

/-- The colour of face `Z_NEG` with the small box's offset 2. -/
theorem face2rgb_Z_NEG_two : (face2rgb face.Z_NEG 2 : float3 α) = rgb 0 255 0 := rfl

/-- The base colour (offset 0) of face `Z_NEG`. -/
theorem face2rgb_Z_NEG_zero : (face2rgb face.Z_NEG 0 : float3 α) = rgb 0 255 255 := rfl

/-- The scene distance at the scene centre at time 0 is `-0.35`, the distance
of the small box. -/
theorem scene_distance_origin :
    (SDF_scene Real.sqrt Real.cos Real.sin ⟨0, 0, 0⟩ 0).distance = -0.35 := by
  rw [scene_distance_z_axis]
  norm_num

/-- The scene distance at `(0,0,5)` at time 0 is `2.7`, the distance to the
small sphere at `(0,0,2)`. -/
theorem scene_distance_far :
    (SDF_scene Real.sqrt Real.cos Real.sin ⟨0, 0, 5⟩ 0).distance = 2.7 := by
  rw [scene_distance_z_axis]
  norm_num

/-- The colour that the scene returns at the scene centre at time 0. -/
theorem scene_color_origin :
    (SDF_scene Real.sqrt Real.cos Real.sin ⟨0, 0, 0⟩ 0).color = rgb 0 255 0 := by
  obtain ⟨h1, h2, h3, h4, h5, h6⟩ := locals_z_axis 0
  obtain ⟨c1, c2⟩ := locals_z_axis_colors 0
  rw [scene_color, locals_color5, locals_color4, locals_color3, locals_color2, locals_color1,
    locals_d4, locals_d3, locals_d2, locals_d1, locals_tmp_d, h1, h2, h3, h4, h5, h6, c1, c2]
  norm_num
  exact face2rgb_Z_NEG_two

/-- The rotation about the X axis preserves the squared length. -/
theorem rotateX_norm_sq (θ : ℝ) (v : float3 ℝ) :
    ((rotateX Real.cos Real.sin θ).mulVec v).x * ((rotateX Real.cos Real.sin θ).mulVec v).x +
      ((rotateX Real.cos Real.sin θ).mulVec v).y * ((rotateX Real.cos Real.sin θ).mulVec v).y +
      ((rotateX Real.cos Real.sin θ).mulVec v).z * ((rotateX Real.cos Real.sin θ).mulVec v).z =
    v.x * v.x + v.y * v.y + v.z * v.z := by
  have h := Real.cos_sq_add_sin_sq θ
  simp only [rotateX, mat3.mulVec]
  linear_combination (v.y * v.y + v.z * v.z) * h

/-- The rotation about the Y axis preserves the squared length. -/
theorem rotateY_norm_sq (θ : ℝ) (v : float3 ℝ) :
    ((rotateY Real.cos Real.sin θ).mulVec v).x * ((rotateY Real.cos Real.sin θ).mulVec v).x +
      ((rotateY Real.cos Real.sin θ).mulVec v).y * ((rotateY Real.cos Real.sin θ).mulVec v).y +
      ((rotateY Real.cos Real.sin θ).mulVec v).z * ((rotateY Real.cos Real.sin θ).mulVec v).z =
    v.x * v.x + v.y * v.y + v.z * v.z := by
  have h := Real.cos_sq_add_sin_sq θ
  simp only [rotateY, mat3.mulVec]
  linear_combination (v.x * v.x + v.z * v.z) * h

/-- The frame of the large box is a rotation of the world frame: the squared
length of the query point is unchanged. -/
theorem locals_rotated_pos_norm_sq (p : float3 ℝ) (t : ℝ) :
    (SDF_scene_locals Real.sqrt Real.cos Real.sin p t).rotated_pos.x *
        (SDF_scene_locals Real.sqrt Real.cos Real.sin p t).rotated_pos.x +
      (SDF_scene_locals Real.sqrt Real.cos Real.sin p t).rotated_pos.y *
        (SDF_scene_locals Real.sqrt Real.cos Real.sin p t).rotated_pos.y +
      (SDF_scene_locals Real.sqrt Real.cos Real.sin p t).rotated_pos.z *
        (SDF_scene_locals Real.sqrt Real.cos Real.sin p t).rotated_pos.z =
    p.x * p.x + p.y * p.y + p.z * p.z := by
  rw [locals_rotated_pos, rotateX_norm_sq, rotateY_norm_sq]

/-- A point strictly inside the cylinder of the scene is strictly inside the
large box: the cylinder does not stick out of the box. -/
theorem cylinder_neg_imp_cube_neg (q : float3 ℝ)
    (h : SDF_cylinder Real.sqrt q ⟨0, 0, 0⟩ 2.0 0.3 < 0) :
    (SDF_cube Real.sqrt q ⟨0, 0, 0⟩ ⟨2, 2, 2⟩).distance < 0 := by
  simp only [SDF_cylinder, float3.xy, float2_sub_def, float2.max, float2.splat, sub_zero,
    float2.length] at h
  have hs := Real.sqrt_nonneg
    (max (Real.sqrt (q.x * q.x + q.y * q.y) - 0.3) 0 * max (Real.sqrt (q.x * q.x + q.y * q.y) - 0.3) 0 +
      max (|q.z| - 2.0 / 2) 0 * max (|q.z| - 2.0 / 2) 0)
  have hm : max (Real.sqrt (q.x * q.x + q.y * q.y) - 0.3) (|q.z| - 2.0 / 2) < 0 := by
    by_contra hc
    rw [min_eq_right (not_lt.mp hc)] at h
    linarith
  obtain ⟨hr, hh⟩ := max_lt_iff.mp hm
  have hr2 : q.x * q.x + q.y * q.y < 0.3 ^ 2 := by
    have := (Real.sqrt_lt' (show (0 : ℝ) < 0.3 by norm_num)).mp (by linarith : Real.sqrt (q.x * q.x + q.y * q.y) < 0.3)
    exact this
  have hx : |q.x| < 1 := by
    rw [abs_lt]; constructor <;> nlinarith [mul_self_nonneg q.y]
  have hy : |q.y| < 1 := by
    rw [abs_lt]; constructor <;> nlinarith [mul_self_nonneg q.x]
  have hz : |q.z| < 1 := by norm_num at hh; linarith
  simp only [SDF_cube, float3.abs, float3_sub_def, float3_div_def, float3.max, float3.splat,
    abs_zero, sub_zero, float3.length]
  rw [max_eq_right (show |q.x| - 2 / 2 ≤ 0 by linarith),
    max_eq_right (show |q.y| - 2 / 2 ≤ 0 by linarith),
    max_eq_right (show |q.z| - 2 / 2 ≤ 0 by linarith)]
  have h1 : max (|q.x| - 2 / 2) (max (|q.y| - 2 / 2) (|q.z| - 2 / 2)) < 0 :=
    max_lt (by linarith) (max_lt (by linarith) (by linarith))
  rw [min_eq_left h1.le]
  simp only [mul_zero, add_zero, Real.sqrt_zero]
  exact h1


/-- A point whose squared length is below `1.2²` is outside both small spheres
of the scene, which sit at `(0,0,2)` and `(0,0,-2)` with radius `0.3`. -/
theorem small_spheres_pos (q : float3 ℝ) (h : q.x * q.x + q.y * q.y + q.z * q.z < 1.2 ^ 2) :
    0 < SDF_sphere Real.sqrt q ⟨0, 0, 2⟩ 0.3 ∧ 0 < SDF_sphere Real.sqrt q ⟨0, 0, -2⟩ 0.3 := by
  have hz : q.z * q.z < 1.2 ^ 2 := by nlinarith [mul_self_nonneg q.x, mul_self_nonneg q.y]
  have hz1 : q.z < 1.2 := by nlinarith
  have hz2 : -1.2 < q.z := by nlinarith
  simp only [SDF_sphere, float3_sub_def, float3.length, sub_zero, sub_neg_eq_add]
  constructor
  · have : (0.3 : ℝ) < Real.sqrt (q.x * q.x + q.y * q.y + (q.z - 2) * (q.z - 2)) := by
      rw [Real.lt_sqrt (by norm_num)]
      nlinarith [mul_self_nonneg q.x, mul_self_nonneg q.y]
    linarith
  · have : (0.3 : ℝ) < Real.sqrt (q.x * q.x + q.y * q.y + (q.z + 2) * (q.z + 2)) := by
      rw [Real.lt_sqrt (by norm_num)]
      nlinarith [mul_self_nonneg q.x, mul_self_nonneg q.y]
    linarith

/-- The colour checks of the scene never confuse the cylinder's colour with a
face colour: no value of `face2rgb` is `rgb(70,230,80)`. -/
theorem face2rgb_ne_cylinder_color (f : face) (offset : Int) :
    (face2rgb f offset : float3 α) ≠ rgb 70 230 80 := by
  unfold face2rgb
  simp only [rgb]
  split_ifs <;> simp

/-! ## The scan of `get_color` -/

/-- The loop of `get_color` over any table: either no entry is strictly below
the initial `min_dist` and the state is unchanged, or the final state is the
distance and the id of an entry that is strictly nearer than every entry before
it and at least as near as every entry after it. -/
theorem get_color_loop_spec (sqrt : α → α) (c : float3 α) (table : List (term_color α)) :
    ∀ acc : α × Int,
      ((∀ e ∈ table, acc.1 ≤ palette_dist sqrt c e) ∧
        get_color_loop sqrt c table acc = acc) ∨
      ∃ pre e post, table = pre ++ e :: post ∧
        get_color_loop sqrt c table acc = (palette_dist sqrt c e, e.curses_color) ∧
        palette_dist sqrt c e < acc.1 ∧
        (∀ x ∈ pre, palette_dist sqrt c e < palette_dist sqrt c x) ∧
        (∀ x ∈ post, palette_dist sqrt c e ≤ palette_dist sqrt c x) := by
  induction table with
  | nil =>
    intro acc
    left
    exact ⟨by simp, rfl⟩
  | cons a l ih =>
    intro acc
    have hstep : get_color_loop sqrt c (a :: l) acc =
        get_color_loop sqrt c l (get_color_step sqrt c acc a) := rfl
    by_cases h : palette_dist sqrt c a < acc.1
    · have hacc : get_color_step sqrt c acc a = (palette_dist sqrt c a, a.curses_color) := by
        simp [get_color_step, h]
      right
      rcases ih (palette_dist sqrt c a, a.curses_color) with ⟨hall, heq⟩ | ⟨pre, e, post, hl, heq, hlt, hpre, hpost⟩
      · exact ⟨[], a, l, rfl, by rw [hstep, hacc, heq], h, by simp, hall⟩
      · refine ⟨a :: pre, e, post, by rw [hl]; rfl, by rw [hstep, hacc, heq],
          lt_trans hlt h, ?_, hpost⟩
        intro x hx
        rcases List.mem_cons.mp hx with rfl | hx
        · exact hlt
        · exact hpre x hx
    · have hacc : get_color_step sqrt c acc a = acc := by
        simp [get_color_step, h]
      rcases ih acc with ⟨hall, heq⟩ | ⟨pre, e, post, hl, heq, hlt, hpre, hpost⟩
      · left
        refine ⟨?_, by rw [hstep, hacc, heq]⟩
        intro x hx
        rcases List.mem_cons.mp hx with rfl | hx
        · exact not_lt.mp h
        · exact hall x hx
      · right
        refine ⟨a :: pre, e, post, by rw [hl]; rfl, by rw [hstep, hacc, heq], hlt, ?_, hpost⟩
        intro x hx
        rcases List.mem_cons.mp hx with rfl | hx
        · exact lt_of_lt_of_le hlt (not_lt.mp h)
        · exact hpre x hx

/-- The table `palette` has sixteen entries. -/
theorem palette_length : (palette : List (term_color α)).length = 16 := rfl

/-- The colour ids of the table are `0..15` in table order. -/
theorem palette_curses_color (i : Fin (palette : List (term_color α)).length) :
    ((palette : List (term_color α)).get i).curses_color = (i.val : Int) := by
  have h : ∀ k : Fin 16, ((palette : List (term_color α)).get k).curses_color = (k.val : Int) := by
    intro k
    fin_cases k <;> rfl
  exact h i

/-- Two palette entries with the same colour have the same id: the sixteen
colours of the table are pairwise different. -/
theorem palette_rgb_injective (e e1 : term_color ℝ)
    (he : e ∈ (palette : List (term_color ℝ))) (he1 : e1 ∈ (palette : List (term_color ℝ)))
    (h : e.rgb_color = e1.rgb_color) : e.curses_color = e1.curses_color := by
  simp only [palette, List.mem_cons, List.mem_singleton, List.not_mem_nil, or_false] at he he1
  rcases he with rfl | rfl | rfl | rfl | rfl | rfl | rfl | rfl | rfl | rfl | rfl | rfl | rfl |
      rfl | rfl | rfl <;>
    rcases he1 with rfl | rfl | rfl | rfl | rfl | rfl | rfl | rfl | rfl | rfl | rfl | rfl | rfl |
      rfl | rfl | rfl <;>
    first
      | rfl
      | (exfalso; simp [rgb] at h)

/-- A split `l = pre ++ e :: post` of a list names an index: the entry at
index `pre.length` is `e`, and the entries at smaller indices are those of
`pre`. -/
theorem index_of_split {β : Type} (l pre post : List β) (e : β) (h : l = pre ++ e :: post) :
    ∃ i : Fin l.length, l.get i = e ∧ ∀ j : Fin l.length, j < i → l.get j ∈ pre := by
  subst h
  refine ⟨⟨pre.length, by simp⟩, ?_, ?_⟩
  · rw [List.get_eq_getElem]
    exact List.getElem_of_append rfl rfl
  intro j hj
  have hj1 : j.val < pre.length := hj
  rw [List.get_eq_getElem, List.getElem_append_left hj1]
  exact List.getElem_mem _

/-- The distance to a palette entry is never negative in exact arithmetic. -/
theorem palette_dist_nonneg (c : float3 ℝ) (e : term_color ℝ) :
    0 ≤ palette_dist Real.sqrt c e :=
  Real.sqrt_nonneg _

/-- A colour with components in `[0, 255]` is nearer than the initial
`min_dist = 1000000` to the first palette entry. -/
theorem palette_dist_first_lt (c : float3 ℝ) (hx0 : 0 ≤ c.x) (hx1 : c.x ≤ 255)
    (hy0 : 0 ≤ c.y) (hy1 : c.y ≤ 255) (hz0 : 0 ≤ c.z) (hz1 : c.z ≤ 255) :
    palette_dist Real.sqrt c ⟨rgb 12 12 12, COLOR_BLACK⟩ < 1000000 := by
  simp only [palette_dist, float3.length, float3_sub_def, rgb]
  rw [Real.sqrt_lt' (by norm_num)]
  nlinarith

/-- The scan of the real palette from the initial state of `get_color`, for a
colour that some palette entry is nearer to than `1000000`: the result is the
id of the first entry at minimal distance. -/
theorem get_color_first_min (c : float3 ℝ) (e0 : term_color ℝ)
    (he0 : e0 ∈ (palette : List (term_color ℝ)))
    (hlt : palette_dist Real.sqrt c e0 < 1000000) :
    ∃ pre e post, (palette : List (term_color ℝ)) = pre ++ e :: post ∧
      get_color Real.sqrt c = e.curses_color ∧
      (∀ x ∈ pre, palette_dist Real.sqrt c e < palette_dist Real.sqrt c x) ∧
      (∀ x ∈ post, palette_dist Real.sqrt c e ≤ palette_dist Real.sqrt c x) := by
  rcases get_color_loop_spec Real.sqrt c palette (1000000, 0) with
    ⟨hall, _⟩ | ⟨pre, e, post, hl, heq, _, hpre, hpost⟩
  · exact absurd hlt (not_lt.mpr (hall e0 he0))
  · exact ⟨pre, e, post, hl, by rw [get_color, heq], hpre, hpost⟩

/-- The first two samples of the ray from `(0,0,-5)` along `(0,0,1)` at time 0
in exact arithmetic: the scene distance at the start is `2.7`, and at the next
sample `(0,0,-5 + 2.7)` it is exactly `0`, on the surface of the small sphere
at `(0,0,-2)`. -/
theorem scene_distance_center_ray :
    (SDF_scene Real.sqrt Real.cos Real.sin ⟨0, 0, -5⟩ 0).distance = 2.7 ∧
    (SDF_scene Real.sqrt Real.cos Real.sin ⟨0, 0, -5 + 2.7⟩ 0).distance = 0 := by
  have e1 : |(-5 + 2.7 : ℝ)| = 2.3 := by rw [abs_of_neg (by norm_num)]; norm_num
  have e2 : |(-5 + 2.7 : ℝ) - 2| = 4.3 := by rw [abs_of_neg (by norm_num)]; norm_num
  have e3 : |(-5 + 2.7 : ℝ) + 2| = 0.3 := by rw [abs_of_neg (by norm_num)]; norm_num
  rw [scene_distance_z_axis, scene_distance_z_axis, e1, e2, e3]
  norm_num

/-- In an ascending list, the entries that are at most `r` form the initial
segment that ends before the first entry above `r`. -/
theorem filter_le_of_ascending (r : α) (l : List α) (h : l.Pairwise (fun a b => a < b)) :
    l.filter (fun th => th ≤ r) = l.takeWhile (fun th => th ≤ r) := by
  induction l with
  | nil => rfl
  | cons a l ih =>
    by_cases ha : a ≤ r
    · simp [List.filter, List.takeWhile, ha, ih (List.Pairwise.of_cons h)]
    · have hl : ∀ b ∈ l, ¬ b ≤ r := fun b hb hbr =>
        ha (le_trans (le_of_lt (List.rel_of_pairwise_cons h hb)) hbr)
      have hnil : l.filter (fun th => th ≤ r) = [] := by
        rw [List.filter_eq_nil_iff]
        intro b hb
        simpa using hl b hb
      simp [List.filter, List.takeWhile, ha, hnil]

/-- A first-match chain over nine thresholds picks the glyph whose index is the
length of the initial segment of thresholds that are at most `r`. -/
theorem first_match_eq_takeWhile (t1 t2 t3 t4 t5 t6 t7 t8 t9 r : α) :
    (if r < t1 then '@' else if r < t2 then '#' else if r < t3 then '$'
      else if r < t4 then '%' else if r < t5 then '&' else if r < t6 then '*'
      else if r < t7 then '+' else if r < t8 then '-' else if r < t9 then '.' else ' ') =
    glyphs.getD (([t1, t2, t3, t4, t5, t6, t7, t8, t9].takeWhile (fun th => th ≤ r)).length)
      ' ' := by
  rcases lt_or_le r t1 with h1 | h1
  · simp [List.takeWhile, h1, not_le.mpr h1, glyphs]
  rcases lt_or_le r t2 with h2 | h2
  · simp [List.takeWhile, h1, not_lt.mpr h1, h2, not_le.mpr h2, glyphs]
  rcases lt_or_le r t3 with h3 | h3
  · simp [List.takeWhile, h1, not_lt.mpr h1, h2, not_lt.mpr h2, h3, not_le.mpr h3, glyphs]
  rcases lt_or_le r t4 with h4 | h4
  · simp [List.takeWhile, h1, not_lt.mpr h1, h2, not_lt.mpr h2, h3, not_lt.mpr h3, h4,
      not_le.mpr h4, glyphs]
  rcases lt_or_le r t5 with h5 | h5
  · simp [List.takeWhile, h1, not_lt.mpr h1, h2, not_lt.mpr h2, h3, not_lt.mpr h3, h4,
      not_lt.mpr h4, h5, not_le.mpr h5, glyphs]
  rcases lt_or_le r t6 with h6 | h6
  · simp [List.takeWhile, h1, not_lt.mpr h1, h2, not_lt.mpr h2, h3, not_lt.mpr h3, h4,
      not_lt.mpr h4, h5, not_lt.mpr h5, h6, not_le.mpr h6, glyphs]
  rcases lt_or_le r t7 with h7 | h7
  · simp [List.takeWhile, h1, not_lt.mpr h1, h2, not_lt.mpr h2, h3, not_lt.mpr h3, h4,
      not_lt.mpr h4, h5, not_lt.mpr h5, h6, not_lt.mpr h6, h7, not_le.mpr h7, glyphs]
  rcases lt_or_le r t8 with h8 | h8
  · simp [List.takeWhile, h1, not_lt.mpr h1, h2, not_lt.mpr h2, h3, not_lt.mpr h3, h4,
      not_lt.mpr h4, h5, not_lt.mpr h5, h6, not_lt.mpr h6, h7, not_lt.mpr h7, h8,
      not_le.mpr h8, glyphs]
  rcases lt_or_le r t9 with h9 | h9
  · simp [List.takeWhile, h1, not_lt.mpr h1, h2, not_lt.mpr h2, h3, not_lt.mpr h3, h4,
      not_lt.mpr h4, h5, not_lt.mpr h5, h6, not_lt.mpr h6, h7, not_lt.mpr h7, h8,
      not_lt.mpr h8, h9, not_le.mpr h9, glyphs]
  · simp [List.takeWhile, h1, not_lt.mpr h1, h2, not_lt.mpr h2, h3, not_lt.mpr h3, h4,
      not_lt.mpr h4, h5, not_lt.mpr h5, h6, not_lt.mpr h6, h7, not_lt.mpr h7, h8,
      not_lt.mpr h8, h9, not_lt.mpr h9, glyphs]

/-- The thresholds of the glyph table are ascending. -/
theorem glyph_thresholds_ascending :
    (glyph_thresholds : List α).Pairwise (fun a b => a < b) := by
  simp only [glyph_thresholds, List.pairwise_cons, List.mem_cons, List.mem_singleton,
    List.not_mem_nil, forall_eq_or_imp, forall_eq, false_imp_iff, implies_true, and_true,
    List.Pairwise.nil]
  norm_num

/-- The thresholds of the glyph table, written as in `depth2char`. -/
theorem glyph_thresholds_eq :
    (glyph_thresholds : List α) = [0.3, 0.4, 0.5, 0.55, 0.60, 0.65, 0.75, 0.8, 0.9] := by
  simp only [glyph_thresholds]
  norm_num

/-- The function `depth2char` is the table lookup of the specification. -/
theorem depth2char_eq_table (depth : α) : depth2char depth = depth2char_table depth := by
  unfold depth2char depth2char_table
  rw [filter_le_of_ascending _ _ glyph_thresholds_ascending, glyph_thresholds_eq]
  exact first_match_eq_takeWhile _ _ _ _ _ _ _ _ _ _

/-- The number of thresholds that are at most `r` grows with `r`. -/
theorem threshold_count_mono (l : List α) (r1 r2 : α) (h : r1 ≤ r2) :
    (l.filter (fun th => th ≤ r1)).length ≤ (l.filter (fun th => th ≤ r2)).length := by
  apply List.Sublist.length_le
  apply List.monotone_filter_right
  intro a ha
  simp only [decide_eq_true_eq] at ha ⊢
  exact le_trans ha h

/-- The rank of the `k`-th glyph is `k`. -/
theorem glyph_rank_getD (k : Nat) (hk : k ≤ 9) : glyph_rank (glyphs.getD k ' ') = k := by
  interval_cases k <;> rfl

/-! ## The box distance in exact real arithmetic -/

/-- The distance of `SDF_cube` for a box centred at the origin, written out. -/
theorem SDF_cube_distance_origin (p s : float3 ℝ) :
    (SDF_cube Real.sqrt p ⟨0, 0, 0⟩ s).distance =
      min (max (|p.x| - s.x / 2) (max (|p.y| - s.y / 2) (|p.z| - s.z / 2))) 0 +
        Real.sqrt (max (|p.x| - s.x / 2) 0 * max (|p.x| - s.x / 2) 0 +
          max (|p.y| - s.y / 2) 0 * max (|p.y| - s.y / 2) 0 +
          max (|p.z| - s.z / 2) 0 * max (|p.z| - s.z / 2) 0) := by
  simp only [SDF_cube, float3.abs, float3_sub_def, float3_div_def, float3.max, float3.splat,
    float3.length, abs_zero, sub_zero]

/-- The positive part of `|a| - h` is at most `|a - b|` for every `b` with
`|b| ≤ h`, also after squaring. -/
theorem clamp_sq_le (a b h : ℝ) (hb : |b| ≤ h) :
    max (|a| - h) 0 * max (|a| - h) 0 ≤ (a - b) * (a - b) := by
  have h1 : |a| - |b| ≤ |a - b| := abs_sub_abs_le_abs_sub a b
  have h2 : max (|a| - h) 0 ≤ |a - b| := max_le (by linarith) (abs_nonneg _)
  have h3 : 0 ≤ max (|a| - h) 0 := le_max_right _ _
  calc max (|a| - h) 0 * max (|a| - h) 0 ≤ |a - b| * |a - b| :=
        mul_self_le_mul_self h3 h2
    _ = (a - b) * (a - b) := abs_mul_abs_self _

/-- The matrix of the library acts on a vector as `mat3.mulVec` does. -/
theorem mat3_toMatrix_mulVec (m : mat3 α) (v : float3 α) :
    Matrix.mulVec m.toMatrix ![v.x, v.y, v.z] =
      ![(m.mulVec v).x, (m.mulVec v).y, (m.mulVec v).z] := by
  funext i
  fin_cases i <;>
    simp [mat3.toMatrix, mat3.mulVec, Matrix.mulVec, Matrix.dotProduct, Fin.sum_univ_three]

/-- A `mat3` whose columns are orthonormal denotes an orthogonal matrix. -/
theorem mat3_orthogonal_of_columns (m : mat3 ℝ)
    (h00 : m.r0.x * m.r0.x + m.r1.x * m.r1.x + m.r2.x * m.r2.x = 1)
    (h11 : m.r0.y * m.r0.y + m.r1.y * m.r1.y + m.r2.y * m.r2.y = 1)
    (h22 : m.r0.z * m.r0.z + m.r1.z * m.r1.z + m.r2.z * m.r2.z = 1)
    (h01 : m.r0.x * m.r0.y + m.r1.x * m.r1.y + m.r2.x * m.r2.y = 0)
    (h02 : m.r0.x * m.r0.z + m.r1.x * m.r1.z + m.r2.x * m.r2.z = 0)
    (h12 : m.r0.y * m.r0.z + m.r1.y * m.r1.z + m.r2.y * m.r2.z = 0) :
    Matrix.transpose m.toMatrix * m.toMatrix = 1 := by
  ext i j
  simp only [Matrix.mul_apply, Fin.sum_univ_three, Matrix.transpose_apply]
  fin_cases i <;> fin_cases j <;>
    simp [mat3.toMatrix] <;>
    linarith

/-- The determinant of the matrix that a `mat3` denotes. -/
theorem mat3_det (m : mat3 ℝ) :
    Matrix.det m.toMatrix =
      m.r0.x * m.r1.y * m.r2.z - m.r0.x * m.r1.z * m.r2.y - m.r0.y * m.r1.x * m.r2.z +
        m.r0.y * m.r1.z * m.r2.x + m.r0.z * m.r1.x * m.r2.y - m.r0.z * m.r1.y * m.r2.x := by
  rw [Matrix.det_fin_three]
  simp [mat3.toMatrix]

/-- The matrix of `rotateX` is orthogonal with determinant 1. -/
theorem rotateX_orthogonal (θ : ℝ) :
    Matrix.transpose (rotateX Real.cos Real.sin θ).toMatrix *
        (rotateX Real.cos Real.sin θ).toMatrix = 1 ∧
    Matrix.det (rotateX Real.cos Real.sin θ).toMatrix = 1 := by
  have h := Real.cos_sq_add_sin_sq θ
  constructor
  · apply mat3_orthogonal_of_columns <;> simp only [rotateX] <;> nlinarith
  · rw [mat3_det]
    simp only [rotateX]
    nlinarith

/-- The matrix of `rotateY` is orthogonal with determinant 1. -/
theorem rotateY_orthogonal (θ : ℝ) :
    Matrix.transpose (rotateY Real.cos Real.sin θ).toMatrix *
        (rotateY Real.cos Real.sin θ).toMatrix = 1 ∧
    Matrix.det (rotateY Real.cos Real.sin θ).toMatrix = 1 := by
  have h := Real.cos_sq_add_sin_sq θ
  constructor
  · apply mat3_orthogonal_of_columns <;> simp only [rotateY] <;> nlinarith
  · rw [mat3_det]
    simp only [rotateY]
    nlinarith

/-- The matrix of `rotateZ` is orthogonal with determinant 1. -/
theorem rotateZ_orthogonal (θ : ℝ) :
    Matrix.transpose (rotateZ Real.cos Real.sin θ).toMatrix *
        (rotateZ Real.cos Real.sin θ).toMatrix = 1 ∧
    Matrix.det (rotateZ Real.cos Real.sin θ).toMatrix = 1 := by
  have h := Real.cos_sq_add_sin_sq θ
  constructor
  · apply mat3_orthogonal_of_columns <;> simp only [rotateZ] <;> nlinarith
  · rw [mat3_det]
    simp only [rotateZ]
    nlinarith

/-- The rotation about the Z axis preserves the squared length. -/
theorem rotateZ_norm_sq (θ : ℝ) (v : float3 ℝ) :
    ((rotateZ Real.cos Real.sin θ).mulVec v).x * ((rotateZ Real.cos Real.sin θ).mulVec v).x +
      ((rotateZ Real.cos Real.sin θ).mulVec v).y * ((rotateZ Real.cos Real.sin θ).mulVec v).y +
      ((rotateZ Real.cos Real.sin θ).mulVec v).z * ((rotateZ Real.cos Real.sin θ).mulVec v).z =
    v.x * v.x + v.y * v.y + v.z * v.z := by
  have h := Real.cos_sq_add_sin_sq θ
  simp only [rotateZ, mat3.mulVec]
  linear_combination (v.x * v.x + v.y * v.y) * h

/-- At angle 0 the three rotations are the identity, as matrices and on
vectors. -/
theorem rotate_zero (v : float3 ℝ) :
    ((rotateX Real.cos Real.sin 0).toMatrix = 1 ∧ (rotateX Real.cos Real.sin 0).mulVec v = v) ∧
    ((rotateY Real.cos Real.sin 0).toMatrix = 1 ∧ (rotateY Real.cos Real.sin 0).mulVec v = v) ∧
    ((rotateZ Real.cos Real.sin 0).toMatrix = 1 ∧ (rotateZ Real.cos Real.sin 0).mulVec v = v) := by
  cases v
  refine ⟨⟨?_, ?_⟩, ⟨?_, ?_⟩, ⟨?_, ?_⟩⟩ <;>
    simp [rotateX, rotateY, rotateZ, mat3.toMatrix, mat3.mulVec, Matrix.one_fin_three]

/-- The square and the disc: the squared distance from `(x, y)` to the square
of half side 1 is at most the squared distance to the disc of radius `0.3`,
and the offsets to the square are below the offset to the disc. -/
theorem square_le_disc (x y : ℝ) :
    |x| - 1 ≤ Real.sqrt (x * x + y * y) - 0.3 ∧
    |y| - 1 ≤ Real.sqrt (x * x + y * y) - 0.3 ∧
    max (|x| - 1) 0 * max (|x| - 1) 0 + max (|y| - 1) 0 * max (|y| - 1) 0 ≤
      max (Real.sqrt (x * x + y * y) - 0.3) 0 * max (Real.sqrt (x * x + y * y) - 0.3) 0 := by
  have hρ0 : 0 ≤ Real.sqrt (x * x + y * y) := Real.sqrt_nonneg _
  have hρ2 : Real.sqrt (x * x + y * y) * Real.sqrt (x * x + y * y) = x * x + y * y :=
    Real.mul_self_sqrt (by nlinarith [mul_self_nonneg x, mul_self_nonneg y])
  have hxx : |x| * |x| = x * x := abs_mul_abs_self x
  have hyy : |y| * |y| = y * y := abs_mul_abs_self y
  have hx0 := abs_nonneg x
  have hy0 := abs_nonneg y
  have hxρ : |x| ≤ Real.sqrt (x * x + y * y) :=
    (mul_self_le_mul_self_iff hx0 hρ0).mpr (by rw [hxx, hρ2]; nlinarith [mul_self_nonneg y])
  have hyρ : |y| ≤ Real.sqrt (x * x + y * y) :=
    (mul_self_le_mul_self_iff hy0 hρ0).mpr (by rw [hyy, hρ2]; nlinarith [mul_self_nonneg x])
  have hsum : Real.sqrt (x * x + y * y) ≤ |x| + |y| :=
    (mul_self_le_mul_self_iff hρ0 (add_nonneg hx0 hy0)).mpr
      (by rw [hρ2]; nlinarith [mul_nonneg hx0 hy0])
  refine ⟨by linarith, by linarith, ?_⟩
  generalize Real.sqrt (x * x + y * y) = ρ at *
  generalize |x| = a at *
  generalize |y| = b at *
  have hR := le_max_right (ρ - 0.3) 0
  rcases le_or_lt a 1 with ha | ha <;> rcases le_or_lt b 1 with hb | hb
  · rw [max_eq_right (show a - 1 ≤ 0 by linarith), max_eq_right (show b - 1 ≤ 0 by linarith)]
    nlinarith
  · rw [max_eq_right (show a - 1 ≤ 0 by linarith), max_eq_left (show 0 ≤ b - 1 by linarith),
      max_eq_left (show 0 ≤ ρ - 0.3 by linarith)]
    nlinarith
  · rw [max_eq_left (show 0 ≤ a - 1 by linarith), max_eq_right (show b - 1 ≤ 0 by linarith),
      max_eq_left (show 0 ≤ ρ - 0.3 by linarith)]
    nlinarith
  · rw [max_eq_left (show 0 ≤ a - 1 by linarith), max_eq_left (show 0 ≤ b - 1 by linarith),
      max_eq_left (show 0 ≤ ρ - 0.3 by linarith)]
    nlinarith

/-- Every point is at least as close to the large box as to the cylinder: the
cylinder of radius `0.3` and height `2` lies inside the box of scale
`(2,2,2)`, so its distance is never below the box's. -/
theorem cube_le_cylinder (q : float3 ℝ) :
    (SDF_cube Real.sqrt q ⟨0, 0, 0⟩ ⟨2, 2, 2⟩).distance ≤
      SDF_cylinder Real.sqrt q ⟨0, 0, 0⟩ 2.0 0.3 := by
  obtain ⟨h1, h2, h3⟩ := square_le_disc q.x q.y
  rw [SDF_cube_distance_origin]
  simp only [SDF_cylinder, float3.xy, float2_sub_def, float2.max, float2.splat, sub_zero,
    float2.length]
  rw [show (2.0 : ℝ) / 2 = 1 by norm_num, show (2 : ℝ) / 2 = 1 by norm_num]
  have hin : min (max (|q.x| - 1) (max (|q.y| - 1) (|q.z| - 1))) 0 ≤
      min (max (Real.sqrt (q.x * q.x + q.y * q.y) - 0.3) (|q.z| - 1)) 0 :=
    min_le_min
      (max_le (le_trans h1 (le_max_left _ _))
        (max_le (le_trans h2 (le_max_left _ _)) (le_max_right _ _)))
      le_rfl
  have hout : Real.sqrt (max (|q.x| - 1) 0 * max (|q.x| - 1) 0 +
        max (|q.y| - 1) 0 * max (|q.y| - 1) 0 + max (|q.z| - 1) 0 * max (|q.z| - 1) 0) ≤
      Real.sqrt (max (Real.sqrt (q.x * q.x + q.y * q.y) - 0.3) 0 *
          max (Real.sqrt (q.x * q.x + q.y * q.y) - 0.3) 0 +
        max (|q.z| - 1) 0 * max (|q.z| - 1) 0) :=
    Real.sqrt_le_sqrt (by linarith)
  linarith


/-! ## The colours that the scene can return -/

/-- The face colours with the offsets 0 and 2 that the scene uses are the six
colours of the `switch`; the fall-through `rgb(0,0,0)` is never reached. -/
theorem face2rgb_cases (f : face) :
    (face2rgb f 0 : float3 α) ∈ [rgb 255 0 0, rgb 0 255 0, rgb 0 0 255, rgb 255 255 0,
      rgb 255 0 255, rgb 0 255 255] ∧
    (face2rgb f 2 : float3 α) ∈ [rgb 255 0 0, rgb 0 255 0, rgb 0 0 255, rgb 255 255 0,
      rgb 255 0 255, rgb 0 255 255] := by
  have h0 : (face2rgb face.X_POS 0 : float3 α) = rgb 255 0 0 := rfl
  have h1 : (face2rgb face.X_NEG 0 : float3 α) = rgb 0 255 0 := rfl
  have h2 : (face2rgb face.Y_POS 0 : float3 α) = rgb 0 0 255 := rfl
  have h3 : (face2rgb face.Y_NEG 0 : float3 α) = rgb 255 255 0 := rfl
  have h4 : (face2rgb face.Z_POS 0 : float3 α) = rgb 255 0 255 := rfl
  have h5 : (face2rgb face.Z_NEG 0 : float3 α) = rgb 0 255 255 := rfl
  have k0 : (face2rgb face.X_POS 2 : float3 α) = rgb 0 0 255 := rfl
  have k1 : (face2rgb face.X_NEG 2 : float3 α) = rgb 255 255 0 := rfl
  have k2 : (face2rgb face.Y_POS 2 : float3 α) = rgb 255 0 255 := rfl
  have k3 : (face2rgb face.Y_NEG 2 : float3 α) = rgb 0 255 255 := rfl
  have k4 : (face2rgb face.Z_POS 2 : float3 α) = rgb 255 0 0 := rfl
  have k5 : (face2rgb face.Z_NEG 2 : float3 α) = rgb 0 255 0 := rfl
  cases f <;> simp [h0, h1, h2, h3, h4, h5, k0, k1, k2, k3, k4, k5]

/-- The colour that `SDF_scene` returns is the colour written by the last test
that succeeded: one of the two small spheres' colours, the small box's face
colour, the cylinder's colour (only if `cylinder_d < cube_d`), the central
sphere's colour, or the large box's face colour. -/
theorem scene_color_cases (sqrt cos sin : α → α) (p : float3 α) (t : α) :
    (SDF_scene sqrt cos sin p t).color = rgb 255 0 255 ∨
    (SDF_scene sqrt cos sin p t).color = rgb 0 255 255 ∨
    (SDF_scene sqrt cos sin p t).color = (SDF_scene_locals sqrt cos sin p t).cube2_color ∨
    ((SDF_scene sqrt cos sin p t).color = rgb 70 230 80 ∧
      (SDF_scene_locals sqrt cos sin p t).cylinder_d <
        (SDF_scene_locals sqrt cos sin p t).cube_d) ∨
    (SDF_scene sqrt cos sin p t).color = rgb 70 80 230 ∨
    (SDF_scene sqrt cos sin p t).color = (SDF_scene_locals sqrt cos sin p t).color_cube := by
  rw [scene_color, locals_color5, locals_color4, locals_color3, locals_color2, locals_color1]
  split_ifs with h5 h4 h3 h2 h1
  · exact Or.inl rfl
  · exact Or.inr (Or.inl rfl)
  · exact Or.inr (Or.inr (Or.inl rfl))
  · exact Or.inr (Or.inr (Or.inr (Or.inl ⟨rfl, h2⟩)))
  · exact Or.inr (Or.inr (Or.inr (Or.inr (Or.inl rfl))))
  · exact Or.inr (Or.inr (Or.inr (Or.inr (Or.inr rfl))))

/-- The colour that `SDF_scene` returns is one of eight palette colours. -/
theorem scene_color_mem (sqrt cos sin : α → α) (p : float3 α) (t : α) :
    (SDF_scene sqrt cos sin p t).color ∈ [rgb 255 0 0, rgb 0 255 0, rgb 0 0 255,
      rgb 255 255 0, rgb 255 0 255, rgb 0 255 255, rgb 70 80 230, rgb 70 230 80] := by
  have hf : ∀ c : float3 α, c ∈ [rgb 255 0 0, rgb 0 255 0, rgb 0 0 255, rgb 255 255 0,
      rgb 255 0 255, rgb 0 255 255] → c ∈ [rgb 255 0 0, rgb 0 255 0, rgb 0 0 255,
      rgb 255 255 0, rgb 255 0 255, rgb 0 255 255, rgb 70 80 230, rgb 70 230 80] := by
    intro c hc
    simp only [List.mem_cons, List.mem_singleton, List.not_mem_nil, or_false] at hc ⊢
    tauto
  rcases scene_color_cases sqrt cos sin p t with h | h | h | ⟨h, _⟩ | h | h
  · rw [h]; simp
  · rw [h]; simp
  · rw [h, locals_cube2_color]; exact hf _ (face2rgb_cases _).2
  · rw [h]; simp
  · rw [h]; simp
  · rw [h, locals_color_cube]; exact hf _ (face2rgb_cases _).1

/-- The colour of a palette entry is classified as that entry's id. -/
theorem get_color_palette_entry (e0 : term_color ℝ)
    (he0 : e0 ∈ (palette : List (term_color ℝ))) :
    get_color Real.sqrt e0.rgb_color = e0.curses_color ∧
      palette_dist Real.sqrt e0.rgb_color e0 = 0 := by
  have hzero : palette_dist Real.sqrt e0.rgb_color e0 = 0 := by
    simp [palette_dist, float3.length, float3_sub_def]
  obtain ⟨pre, e, post, hl, hres, hpre, hpost⟩ :=
    get_color_first_min e0.rgb_color e0 he0 (by rw [hzero]; norm_num)
  have he : e ∈ (palette : List (term_color ℝ)) := by
    rw [hl]
    simp
  have hle : palette_dist Real.sqrt e0.rgb_color e ≤ 0 := by
    rw [← hzero]
    have hi : e0 ∈ pre ++ e :: post := by
      rw [← hl]
      exact he0
    rcases List.mem_append.mp hi with h | h
    · exact (hpre _ h).le
    · rcases List.mem_cons.mp h with h | h
      · rw [h]
      · exact hpost _ h
  have hsq := Real.sqrt_eq_zero'.mp (le_antisymm hle (palette_dist_nonneg _ _))
  have hrgb : e.rgb_color = e0.rgb_color := by
    simp only [float3_sub_def] at hsq
    have h1 : e0.rgb_color.x - e.rgb_color.x = 0 := by
      nlinarith [mul_self_nonneg (e0.rgb_color.x - e.rgb_color.x),
        mul_self_nonneg (e0.rgb_color.y - e.rgb_color.y),
        mul_self_nonneg (e0.rgb_color.z - e.rgb_color.z)]
    have h2 : e0.rgb_color.y - e.rgb_color.y = 0 := by
      nlinarith [mul_self_nonneg (e0.rgb_color.x - e.rgb_color.x),
        mul_self_nonneg (e0.rgb_color.y - e.rgb_color.y),
        mul_self_nonneg (e0.rgb_color.z - e.rgb_color.z)]
    have h3 : e0.rgb_color.z - e.rgb_color.z = 0 := by
      nlinarith [mul_self_nonneg (e0.rgb_color.x - e.rgb_color.x),
        mul_self_nonneg (e0.rgb_color.y - e.rgb_color.y),
        mul_self_nonneg (e0.rgb_color.z - e.rgb_color.z)]
    cases hc : e.rgb_color
    cases hd : e0.rgb_color
    rw [hc, hd] at h1 h2 h3
    simp only [float3.mk.injEq]
    exact ⟨by linarith, by linarith, by linarith⟩
  exact ⟨by rw [hres, palette_rgb_injective e e0 he he0 hrgb], hzero⟩

/-! ## The marching loop -/

theorem float3_add_def (a b : float3 α) : a + b = ⟨a.x + b.x, a.y + b.y, a.z + b.z⟩ := rfl

theorem float3_mul_def (a : float3 α) (s : α) : a * s = ⟨a.x * s, a.y * s, a.z * s⟩ := rfl

section March

variable (sqrt cos sin : α → α) (time : α)

/-- The body of the loop when the scene distance at the ray origin is negative:
only the colour is stored and the loop is left. -/
theorem march_body_hit (s : march_state α)
    (h : (SDF_scene sqrt cos sin s.r.origin time).distance < 0) :
    march_body sqrt cos sin time s =
      ⟨s.k, s.depth, s.r, (SDF_scene sqrt cos sin s.r.origin time).color, true⟩ := by
  have h1 : (SDF_scene sqrt cos sin ⟨s.r.origin.x, s.r.origin.y, s.r.origin.z⟩
      time).distance < 0 := h
  simp only [march_body, h1, if_true]

/-- The body of the loop when the scene distance at the ray origin is not
negative: the distance is added to the depth and the ray moves by it. -/
theorem march_body_step (s : march_state α)
    (h : ¬ (SDF_scene sqrt cos sin s.r.origin time).distance < 0) :
    march_body sqrt cos sin time s =
      ⟨s.k + 1, s.depth + (SDF_scene sqrt cos sin s.r.origin time).distance,
        ⟨march_next sqrt cos sin s.r.direction time s.r.origin, s.r.direction⟩,
        (SDF_scene sqrt cos sin s.r.origin time).color, false⟩ := by
  have h1 : ¬ (SDF_scene sqrt cos sin ⟨s.r.origin.x, s.r.origin.y, s.r.origin.z⟩
      time).distance < 0 := h
  simp only [march_body, h1, if_false]
  rfl

/-- The loop with one more iteration left, unfolded at its first iteration. -/
theorem march_loop_unfold (n : Nat) (s : march_state α) :
    march_loop sqrt cos sin time (n + 1) s =
      if (march_body sqrt cos sin time s).hit then march_body sqrt cos sin time s
      else march_loop sqrt cos sin time n (march_body sqrt cos sin time s) := rfl

/-- One more iteration of the loop is one more execution of the body, unless
the loop was already left. -/
theorem march_loop_succ (n : Nat) (s : march_state α) (hs : s.hit = false) :
    march_loop sqrt cos sin time (n + 1) s =
      if (march_loop sqrt cos sin time n s).hit then march_loop sqrt cos sin time n s
      else march_body sqrt cos sin time (march_loop sqrt cos sin time n s) := by
  induction n generalizing s with
  | zero =>
    simp only [march_loop, hs]
    split_ifs <;> simp_all
  | succ n ih =>
    have h1 : march_loop sqrt cos sin time (n + 1 + 1) s =
        if (march_body sqrt cos sin time s).hit then march_body sqrt cos sin time s
        else march_loop sqrt cos sin time (n + 1) (march_body sqrt cos sin time s) := rfl
    have h2 : march_loop sqrt cos sin time (n + 1) s =
        if (march_body sqrt cos sin time s).hit then march_body sqrt cos sin time s
        else march_loop sqrt cos sin time n (march_body sqrt cos sin time s) := rfl
    rw [h1, h2]
    by_cases hb : (march_body sqrt cos sin time s).hit = true
    · simp only [hb, if_true]
    · simp only [hb, if_false]
      exact ih _ (by simpa using hb)

/-- The body of the loop keeps the invariant "the depth is not negative, the
direction is unchanged and the origin is `cam_pos + dir * depth`", and it never
decreases the depth. -/
theorem march_body_inv (cam_pos dir : float3 α) (s : march_state α)
    (hd : s.r.direction = dir) (ho : s.r.origin = cam_pos + dir * s.depth)
    (h0 : 0 ≤ s.depth) :
    (march_body sqrt cos sin time s).r.direction = dir ∧
    (march_body sqrt cos sin time s).r.origin =
      cam_pos + dir * (march_body sqrt cos sin time s).depth ∧
    0 ≤ (march_body sqrt cos sin time s).depth ∧
    s.depth ≤ (march_body sqrt cos sin time s).depth := by
  by_cases h : (SDF_scene sqrt cos sin s.r.origin time).distance < 0
  · rw [march_body_hit _ _ _ _ _ h]
    exact ⟨hd, ho, h0, le_refl _⟩
  · rw [march_body_step _ _ _ _ _ h]
    have hD := not_lt.mp h
    refine ⟨hd, ?_, add_nonneg h0 hD, le_add_of_nonneg_right hD⟩
    simp only [march_next, hd]
    rw [ho]
    simp only [float3_add_def, float3_mul_def, float3.mk.injEq]
    exact ⟨by ring, by ring, by ring⟩

/-- The loop keeps the invariant of `march_body_inv` for any number of
iterations. -/
theorem march_loop_inv (cam_pos dir : float3 α) (n : Nat) (s : march_state α)
    (hd : s.r.direction = dir) (ho : s.r.origin = cam_pos + dir * s.depth)
    (h0 : 0 ≤ s.depth) :
    (march_loop sqrt cos sin time n s).r.direction = dir ∧
    (march_loop sqrt cos sin time n s).r.origin =
      cam_pos + dir * (march_loop sqrt cos sin time n s).depth ∧
    0 ≤ (march_loop sqrt cos sin time n s).depth := by
  induction n generalizing s with
  | zero => exact ⟨hd, ho, h0⟩
  | succ n ih =>
    obtain ⟨b1, b2, b3, _⟩ := march_body_inv sqrt cos sin time cam_pos dir s hd ho h0
    rw [march_loop_unfold]
    split_ifs
    · exact ⟨b1, b2, b3⟩
    · exact ih _ b1 b2 b3

/-- The loop with `n` iterations left, started in any state: it completes some
`m ≤ n` steps along the sample points of `march_next`, all with a distance that
is not negative, adds exactly these distances to the depth, and either breaks at
sample `m` with a negative distance, or uses up the `n` iterations; the colour
is the one of the last sample that was evaluated. -/
theorem march_loop_spec (n : Nat) (s : march_state α) :
    ∃ m, m ≤ n ∧
      (march_loop sqrt cos sin time n s).k = s.k + m ∧
      (march_loop sqrt cos sin time n s).r.direction = s.r.direction ∧
      (march_loop sqrt cos sin time n s).r.origin =
        (march_next sqrt cos sin s.r.direction time)^[m] s.r.origin ∧
      (march_loop sqrt cos sin time n s).depth = s.depth +
        Finset.sum (Finset.range m) (fun i =>
          (SDF_scene sqrt cos sin
            ((march_next sqrt cos sin s.r.direction time)^[i] s.r.origin) time).distance) ∧
      (∀ i, i < m → ¬ (SDF_scene sqrt cos sin
          ((march_next sqrt cos sin s.r.direction time)^[i] s.r.origin) time).distance < 0) ∧
      (((march_loop sqrt cos sin time n s).hit = true ∧ m < n ∧
          (SDF_scene sqrt cos sin
            ((march_next sqrt cos sin s.r.direction time)^[m] s.r.origin) time).distance < 0 ∧
          (march_loop sqrt cos sin time n s).color_rgb =
            (SDF_scene sqrt cos sin
              ((march_next sqrt cos sin s.r.direction time)^[m] s.r.origin) time).color) ∨
        (m = n ∧ (n = 0 → march_loop sqrt cos sin time n s = s) ∧
          (0 < n → (march_loop sqrt cos sin time n s).hit = false ∧
            (march_loop sqrt cos sin time n s).color_rgb =
              (SDF_scene sqrt cos sin
                ((march_next sqrt cos sin s.r.direction time)^[n - 1] s.r.origin)
                time).color))) := by
  induction n generalizing s with
  | zero =>
    refine ⟨0, le_refl _, rfl, rfl, rfl, by simp [march_loop], ?_, Or.inr ⟨rfl, fun _ => rfl, ?_⟩⟩
    · intro i hi
      exact absurd hi (Nat.not_lt_zero _)
    · intro h
      exact absurd h (Nat.lt_irrefl _)
  | succ n ih =>
    by_cases hD : (SDF_scene sqrt cos sin s.r.origin time).distance < 0
    · have hb := march_body_hit sqrt cos sin time s hD
      have hl : march_loop sqrt cos sin time (n + 1) s =
          ⟨s.k, s.depth, s.r, (SDF_scene sqrt cos sin s.r.origin time).color, true⟩ := by
        rw [march_loop_unfold, hb]
        rfl
      rw [hl]
      refine ⟨0, Nat.zero_le _, rfl, rfl, rfl, by simp, ?_, Or.inl ⟨rfl, Nat.succ_pos _, hD, rfl⟩⟩
      intro i hi
      exact absurd hi (Nat.not_lt_zero _)
    · have hb := march_body_step sqrt cos sin time s hD
      have hl : march_loop sqrt cos sin time (n + 1) s =
          march_loop sqrt cos sin time n
            ⟨s.k + 1, s.depth + (SDF_scene sqrt cos sin s.r.origin time).distance,
              ⟨march_next sqrt cos sin s.r.direction time s.r.origin, s.r.direction⟩,
              (SDF_scene sqrt cos sin s.r.origin time).color, false⟩ := by
        rw [march_loop_unfold, hb]
        rfl
      obtain ⟨m, hm, hk, hdir, horg, hdep, hpos, halt⟩ := ih
        ⟨s.k + 1, s.depth + (SDF_scene sqrt cos sin s.r.origin time).distance,
          ⟨march_next sqrt cos sin s.r.direction time s.r.origin, s.r.direction⟩,
          (SDF_scene sqrt cos sin s.r.origin time).color, false⟩
      simp only [← Function.iterate_succ_apply] at horg hdep hpos halt
      rw [hl]
      refine ⟨m + 1, Nat.succ_le_succ hm, by rw [hk]; ring, hdir, horg, ?_, ?_, ?_⟩
      · rw [hdep, Finset.sum_range_succ', Function.iterate_zero, id_eq]
        ring
      · intro i hi
        cases i with
        | zero => exact hD
        | succ j => exact hpos j (Nat.lt_of_succ_lt_succ hi)
      · rcases halt with ⟨h1, h2, h3, h4⟩ | ⟨h1, h2, h3⟩
        · exact Or.inl ⟨h1, Nat.succ_lt_succ h2, h3, h4⟩
        · refine Or.inr ⟨by rw [h1], fun h => absurd h (Nat.succ_ne_zero _), fun _ => ?_⟩
          rcases Nat.eq_zero_or_pos n with hn | hn
          · subst hn
            rw [h2 rfl]
            exact ⟨rfl, rfl⟩
          · obtain ⟨h5, h6⟩ := h3 hn
            refine ⟨h5, ?_⟩
            rw [h6, Nat.add_sub_cancel]
            have : n - 1 + 1 = n := Nat.sub_add_cancel hn
            rw [Nat.succ_eq_add_one, this]

end March

/-! ## Evaluation on binary32 values -/

/-- The binary32 model on values whose bit patterns are known: `0.3f`, `1.2f`,
`0.7f` (`0x3e99999a`, `0x3f99999a`, `0x3f333333`), `1.0f / 3.0f`
(`0x3eaaaaab`), `sqrt(2.0f)` (`0x3fb504f3`), the ties `2^24 + 1 = 2^24` and
`2^24 + 3 = 2^24 + 4`, and `0.1f + 0.2f = 0.3f`. -/
theorem f32_known_values :
    f32.lit 3 10 = ⟨10066330 * 2 ^ 124⟩ ∧
    f32.lit 12 10 = ⟨10066330 * 2 ^ 126⟩ ∧
    f32.lit 7 10 = ⟨11744051 * 2 ^ 125⟩ ∧
    f32.lit 1 3 = ⟨11184811 * 2 ^ 124⟩ ∧
    f32.sqrt 2 = ⟨11863283 * 2 ^ 126⟩ ∧
    (16777216 : f32) + 1 = 16777216 ∧
    (16777216 : f32) + 3 = 16777220 ∧
    f32.lit 1 10 + f32.lit 2 10 = f32.lit 3 10 := by
  decide!

set_option maxRecDepth 100000 in
/-- At time 0 the binary32 scene calls `cos` and `sin` only at 0 (`-0` and
`0 / 2` are 0), so it depends on them only through `cos 0` and `sin 0`. -/
theorem SDF_scene_f32_time_zero (cos sin : f32 → f32) (hc : cos 0 = 1) (hs : sin 0 = 0)
    (p : float3 f32) :
    SDF_scene_f32 cos sin p 0 = SDF_scene_f32 (fun _ => 1) (fun _ => 0) p 0 := by
  have h1 : (-(0 : f32)) = 0 := by decide!
  have h2 : ((0 : f32) / 2) = 0 := by decide!
  simp only [SDF_scene_f32, rotateX_f32, rotateY_f32, h1, h2, hc, hs]

set_option maxRecDepth 100000 in
/-- At time 0 the binary32 marching loop depends on `cos` and `sin` only
through `cos 0` and `sin 0`. -/
theorem march_loop_f32_time_zero (cos sin : f32 → f32) (hc : cos 0 = 1) (hs : sin 0 = 0)
    (n : Nat) (s : march_state f32) :
    march_loop_f32 cos sin 0 n s = march_loop_f32 (fun _ => 1) (fun _ => 0) 0 n s := by
  induction n generalizing s with
  | zero => simp only [march_loop_f32]
  | succ n ih =>
    have hb : march_body_f32 cos sin 0 s = march_body_f32 (fun _ => 1) (fun _ => 0) 0 s := by
      simp only [march_body_f32, SDF_scene_f32_time_zero cos sin hc hs]
    simp only [march_loop_f32, hb, ih]

/-- The ray from `(0,0,-5)` along `(0,0,1)` at time 0 on binary32 values: the
loop ends by its `break`. -/
theorem march_center_ray_f32_hit :
    (march_pixel_f32 (fun _ => 1) (fun _ => 0) ⟨0, 0, -5⟩ ⟨0, 0, 1⟩ 0).hit = true := by
  decide!

/-- On that ray the `break` happens at step index 1. -/
theorem march_center_ray_f32_k :
    (march_pixel_f32 (fun _ => 1) (fun _ => 0) ⟨0, 0, -5⟩ ⟨0, 0, 1⟩ 0).k = 1 := by
  decide!

/-- On that ray the first evaluation gives `2.7000000477`
(`90596968 * 2^-25`), which is the accumulated depth at the `break`. -/
theorem march_center_ray_f32_depth :
    (march_pixel_f32 (fun _ => 1) (fun _ => 0) ⟨0, 0, -5⟩ ⟨0, 0, 1⟩ 0).depth =
      ⟨90596968 * 2 ^ 124⟩ := by
  decide!

/-- On that ray the origin at the `break` is at `z = -2.2999999523`
(`-9646899 * 2^-22`). -/
theorem march_center_ray_f32_origin_z :
    (march_pixel_f32 (fun _ => 1) (fun _ => 0) ⟨0, 0, -5⟩ ⟨0, 0, 1⟩ 0).r.origin.z =
      ⟨-(9646899 * 2 ^ 127)⟩ := by
  decide!

/-- On that ray the origin at the `break` has `x = 0`. -/
theorem march_center_ray_f32_origin_x :
    (march_pixel_f32 (fun _ => 1) (fun _ => 0) ⟨0, 0, -5⟩ ⟨0, 0, 1⟩ 0).r.origin.x = 0 := by
  decide!

/-- On that ray the origin at the `break` has `y = 0`. -/
theorem march_center_ray_f32_origin_y :
    (march_pixel_f32 (fun _ => 1) (fun _ => 0) ⟨0, 0, -5⟩ ⟨0, 0, 1⟩ 0).r.origin.y = 0 := by
  decide!

/-- The binary32 scene distance at `(0, 0, -2.2999999523)` is `-2^-24`. -/
theorem march_center_ray_f32_distance :
    (SDF_scene_f32 (fun _ => 1) (fun _ => 0) ⟨0, 0, ⟨-(9646899 * 2 ^ 127)⟩⟩ 0).distance =
      ⟨-(2 ^ 125)⟩ := by
  decide!

/-! ## Rotation matrices over any field of values -/

/-- The determinant of the matrix that a `mat3` denotes, over any values. -/
theorem mat3_det_values (m : mat3 α) :
    Matrix.det m.toMatrix =
      m.r0.x * m.r1.y * m.r2.z - m.r0.x * m.r1.z * m.r2.y - m.r0.y * m.r1.x * m.r2.z +
        m.r0.y * m.r1.z * m.r2.x + m.r0.z * m.r1.x * m.r2.y - m.r0.z * m.r1.y * m.r2.x := by
  rw [Matrix.det_fin_three]
  simp [mat3.toMatrix]

/-- A `mat3` whose columns are orthonormal denotes an orthogonal matrix, over
any values. -/
theorem mat3_orthogonal_of_columns_values (m : mat3 α)
    (h00 : m.r0.x * m.r0.x + m.r1.x * m.r1.x + m.r2.x * m.r2.x = 1)
    (h11 : m.r0.y * m.r0.y + m.r1.y * m.r1.y + m.r2.y * m.r2.y = 1)
    (h22 : m.r0.z * m.r0.z + m.r1.z * m.r1.z + m.r2.z * m.r2.z = 1)
    (h01 : m.r0.x * m.r0.y + m.r1.x * m.r1.y + m.r2.x * m.r2.y = 0)
    (h02 : m.r0.x * m.r0.z + m.r1.x * m.r1.z + m.r2.x * m.r2.z = 0)
    (h12 : m.r0.y * m.r0.z + m.r1.y * m.r1.z + m.r2.y * m.r2.z = 0) :
    Matrix.transpose m.toMatrix * m.toMatrix = 1 := by
  ext i j
  simp only [Matrix.mul_apply, Fin.sum_univ_three, Matrix.transpose_apply]
  fin_cases i <;> fin_cases j <;>
    simp [mat3.toMatrix] <;>
    linarith

/-- A matrix with `MᵀM = 1` and determinant `e ≥ 0` has `e = 1`. -/
theorem det_eq_one_of_orthogonal (M : Matrix (Fin 3) (Fin 3) α) (e : α) (he : 0 ≤ e)
    (hdet : Matrix.det M = e) (h : Matrix.transpose M * M = 1) : e = 1 := by
  have h1 : Matrix.det (Matrix.transpose M * M) = 1 := by rw [h, Matrix.det_one]
  rw [Matrix.det_mul, Matrix.det_transpose, hdet] at h1
  nlinarith

/-- The matrices of `rotateX`, `rotateY` and `rotateZ` for stored values
`c = cos θ` and `s = sin θ`: the determinant is `c² + s²`, and the matrix is
orthogonal exactly when `c² + s² = 1`. -/
theorem rotate_det_orthogonal (cos sin : α → α) (θ : α) :
    (Matrix.det (rotateX cos sin θ).toMatrix = cos θ * cos θ + sin θ * sin θ ∧
      (Matrix.transpose (rotateX cos sin θ).toMatrix * (rotateX cos sin θ).toMatrix = 1 ↔
        cos θ * cos θ + sin θ * sin θ = 1)) ∧
    (Matrix.det (rotateY cos sin θ).toMatrix = cos θ * cos θ + sin θ * sin θ ∧
      (Matrix.transpose (rotateY cos sin θ).toMatrix * (rotateY cos sin θ).toMatrix = 1 ↔
        cos θ * cos θ + sin θ * sin θ = 1)) ∧
    (Matrix.det (rotateZ cos sin θ).toMatrix = cos θ * cos θ + sin θ * sin θ ∧
      (Matrix.transpose (rotateZ cos sin θ).toMatrix * (rotateZ cos sin θ).toMatrix = 1 ↔
        cos θ * cos θ + sin θ * sin θ = 1)) := by
  have he : 0 ≤ cos θ * cos θ + sin θ * sin θ :=
    add_nonneg (mul_self_nonneg _) (mul_self_nonneg _)
  have dX : Matrix.det (rotateX cos sin θ).toMatrix = cos θ * cos θ + sin θ * sin θ := by
    rw [mat3_det_values]; simp only [rotateX]; ring
  have dY : Matrix.det (rotateY cos sin θ).toMatrix = cos θ * cos θ + sin θ * sin θ := by
    rw [mat3_det_values]; simp only [rotateY]; ring
  have dZ : Matrix.det (rotateZ cos sin θ).toMatrix = cos θ * cos θ + sin θ * sin θ := by
    rw [mat3_det_values]; simp only [rotateZ]; ring
  refine ⟨⟨dX, fun h => det_eq_one_of_orthogonal _ _ he dX h, fun h => ?_⟩,
    ⟨dY, fun h => det_eq_one_of_orthogonal _ _ he dY h, fun h => ?_⟩,
    ⟨dZ, fun h => det_eq_one_of_orthogonal _ _ he dZ h, fun h => ?_⟩⟩
  · apply mat3_orthogonal_of_columns_values <;> simp only [rotateX] <;>
      first | ring1 | linear_combination h
  · apply mat3_orthogonal_of_columns_values <;> simp only [rotateY] <;>
      first | ring1 | linear_combination h
  · apply mat3_orthogonal_of_columns_values <;> simp only [rotateZ] <;>
      first | ring1 | linear_combination h

/-- Where `cos` gives 1 and `sin` gives 0 the three matrices are the identity,
as matrices and on vectors. -/
theorem rotate_identity (cos sin : α → α) (θ : α) (hc : cos θ = 1) (hs : sin θ = 0)
    (v : float3 α) :
    ((rotateX cos sin θ).toMatrix = 1 ∧ (rotateX cos sin θ).mulVec v = v) ∧
    ((rotateY cos sin θ).toMatrix = 1 ∧ (rotateY cos sin θ).mulVec v = v) ∧
    ((rotateZ cos sin θ).toMatrix = 1 ∧ (rotateZ cos sin θ).mulVec v = v) := by
  cases v
  refine ⟨⟨?_, ?_⟩, ⟨?_, ?_⟩, ⟨?_, ?_⟩⟩ <;>
    simp [rotateX, rotateY, rotateZ, mat3.toMatrix, mat3.mulVec, Matrix.one_fin_three, hc, hs]

/-! ## Theorems -/

/-- Claim C1: a point that is strictly outside all six primitives of the scene
(each primitive distance that `SDF_scene` computes is positive) gets a positive
scene distance.  This holds for every time and whatever `sqrt`, `cos` and `sin`
compute. -/
theorem SDF_scene_pos_of_outside_all (sqrt cos sin : α → α) (p : float3 α) (t : α)
    (hcube : 0 < (SDF_scene_locals sqrt cos sin p t).cube_d)
    (_hsphere : 0 < (SDF_scene_locals sqrt cos sin p t).sphere_d)
    (hcyl : 0 < (SDF_scene_locals sqrt cos sin p t).cylinder_d)
    (hcube2 : 0 < (SDF_scene_locals sqrt cos sin p t).cube2_d)
    (hs2 : 0 < (SDF_scene_locals sqrt cos sin p t).sphere2_d)
    (hs3 : 0 < (SDF_scene_locals sqrt cos sin p t).sphere3_d) :
    0 < (SDF_scene sqrt cos sin p t).distance := by
  simp only [SDF_scene, SDF_scene_locals, SDF_union, SDF_intersection, SDF_difference] at *
  simp only [lt_min_iff, lt_max_iff]
  exact ⟨⟨⟨⟨Or.inl hcyl, Or.inl hcube⟩, hcube2⟩, hs2⟩, hs3⟩

/-- Witness for claim C1: the point `(0,0,5)` at time 0 is outside all six
primitives. -/
theorem SDF_scene_pos_of_outside_all_witness :
    0 < (SDF_scene_locals Real.sqrt Real.cos Real.sin ⟨0, 0, 5⟩ 0).cube_d ∧
    0 < (SDF_scene_locals Real.sqrt Real.cos Real.sin ⟨0, 0, 5⟩ 0).sphere_d ∧
    0 < (SDF_scene_locals Real.sqrt Real.cos Real.sin ⟨0, 0, 5⟩ 0).cylinder_d ∧
    0 < (SDF_scene_locals Real.sqrt Real.cos Real.sin ⟨0, 0, 5⟩ 0).cube2_d ∧
    0 < (SDF_scene_locals Real.sqrt Real.cos Real.sin ⟨0, 0, 5⟩ 0).sphere2_d ∧
    0 < (SDF_scene_locals Real.sqrt Real.cos Real.sin ⟨0, 0, 5⟩ 0).sphere3_d ∧
    0 < (SDF_scene Real.sqrt Real.cos Real.sin ⟨0, 0, 5⟩ 0).distance := by
  obtain ⟨h1, h2, h3, h4, h5, h6⟩ := locals_z_axis 5
  have a1 : 0 < (SDF_scene_locals Real.sqrt Real.cos Real.sin ⟨0, 0, 5⟩ 0).cube_d := by
    rw [h1]; norm_num
  have a2 : 0 < (SDF_scene_locals Real.sqrt Real.cos Real.sin ⟨0, 0, 5⟩ 0).sphere_d := by
    rw [h2]; norm_num
  have a3 : 0 < (SDF_scene_locals Real.sqrt Real.cos Real.sin ⟨0, 0, 5⟩ 0).cylinder_d := by
    rw [h3]; norm_num
  have a4 : 0 < (SDF_scene_locals Real.sqrt Real.cos Real.sin ⟨0, 0, 5⟩ 0).cube2_d := by
    rw [h4]; norm_num
  have a5 : 0 < (SDF_scene_locals Real.sqrt Real.cos Real.sin ⟨0, 0, 5⟩ 0).sphere2_d := by
    rw [h5]; norm_num
  have a6 : 0 < (SDF_scene_locals Real.sqrt Real.cos Real.sin ⟨0, 0, 5⟩ 0).sphere3_d := by
    rw [h6]; norm_num
  exact ⟨a1, a2, a3, a4, a5, a6,
    SDF_scene_pos_of_outside_all Real.sqrt Real.cos Real.sin ⟨0, 0, 5⟩ 0 a1 a2 a3 a4 a5 a6⟩

/-- Claim C3: at time 0 the scene distance at the scene centre `(0,0,0)` is
negative and the scene distance at `(0,0,5)` is positive. -/
theorem SDF_scene_center_neg_far_pos :
    (SDF_scene Real.sqrt Real.cos Real.sin ⟨0, 0, 0⟩ 0).distance < 0 ∧
    0 < (SDF_scene Real.sqrt Real.cos Real.sin ⟨0, 0, 5⟩ 0).distance := by
  rw [scene_distance_origin, scene_distance_far]
  norm_num

/-- Claim C4, refuted as stated: at the scene centre at time 0 the colour that
`SDF_scene` returns is not the base colour `face2rgb(f, 0)` of the face `f`
that `SDF_cube` reports for the large 2x2x2 box there. -/
theorem SDF_scene_center_color_ne_large_box_base :
    (SDF_scene Real.sqrt Real.cos Real.sin ⟨0, 0, 0⟩ 0).color ≠
      face2rgb (SDF_cube Real.sqrt ⟨0, 0, 0⟩ ⟨0, 0, 0⟩ ⟨2, 2, 2⟩).closest_face 0 := by
  rw [scene_color_origin, cube_face_z_axis]
  simp [face2rgb_Z_NEG_zero, rgb]

/-- Claim C4, amended: at the scene centre at time 0 the colour that
`SDF_scene` returns is the colour of the small 0.7 box, `face2rgb(f2, 2)` for
the face `f2` that `SDF_cube` reports for the small box there, which is
`rgb(0,255,0)`. -/
theorem SDF_scene_center_color_small_box :
    (SDF_scene Real.sqrt Real.cos Real.sin ⟨0, 0, 0⟩ 0).color =
      face2rgb (SDF_cube Real.sqrt ⟨0, 0, 0⟩ ⟨0, 0, 0⟩ (float3.splat 0.7)).closest_face 2 ∧
    (SDF_scene Real.sqrt Real.cos Real.sin ⟨0, 0, 0⟩ 0).color = rgb 0 255 0 := by
  rw [scene_color_origin, float3.splat, cube_face_z_axis]
  simp [face2rgb_Z_NEG_two]

/-- Claim C2, refuted as stated: the point `(0,0,1/2)` is strictly inside the
central sphere of radius 1.2, and at time 0 the scene distance there is not
negative (it is `0.15`, the distance to the small box). -/
theorem SDF_scene_inside_sphere_not_neg :
    float3.length Real.sqrt ⟨0, 0, 1 / 2⟩ < 1.2 ∧
    ¬ (SDF_scene Real.sqrt Real.cos Real.sin ⟨0, 0, 1 / 2⟩ 0).distance < 0 := by
  have e1 : |(1 / 2 : ℝ)| = 1 / 2 := abs_of_pos (by norm_num)
  have e2 : |(1 / 2 : ℝ) - 2| = 3 / 2 := by rw [abs_of_neg (by norm_num)]; norm_num
  have e3 : |(1 / 2 : ℝ) + 2| = 5 / 2 := by rw [abs_of_pos (by norm_num)]; norm_num
  rw [float3_length_z_axis, scene_distance_z_axis, e1, e2, e3]
  norm_num

/-- Claim C2, amended: for every time and every point strictly inside the
central sphere (`|p| < 1.2`), the scene distance is negative exactly when the
point is strictly inside the small box (`cube2_d < 0`); the sphere itself is
subtracted from the large box and contributes no interior. -/
theorem SDF_scene_neg_inside_sphere_iff (p : float3 ℝ) (t : ℝ)
    (hp : float3.length Real.sqrt p < 1.2) :
    (SDF_scene Real.sqrt Real.cos Real.sin p t).distance < 0 ↔
      (SDF_scene_locals Real.sqrt Real.cos Real.sin p t).cube2_d < 0 := by
  have hp2 : p.x * p.x + p.y * p.y + p.z * p.z < 1.2 ^ 2 :=
    (Real.sqrt_lt' (by norm_num)).mp hp
  have hsph : (SDF_scene_locals Real.sqrt Real.cos Real.sin p t).sphere_d < 0 := by
    rw [locals_sphere_d]
    simp only [SDF_sphere, float3_sub_def, sub_zero]
    exact sub_neg.mpr hp
  have hd1 : 0 < (SDF_scene_locals Real.sqrt Real.cos Real.sin p t).d1 := by
    rw [locals_d1]
    exact lt_max_of_lt_right (by linarith)
  have hcyl : ¬ max (SDF_scene_locals Real.sqrt Real.cos Real.sin p t).cylinder_d
      (-(SDF_scene_locals Real.sqrt Real.cos Real.sin p t).cube_d) < 0 := by
    intro hc
    obtain ⟨h1, h2⟩ := max_lt_iff.mp hc
    rw [locals_cylinder_d] at h1
    have h3 := cylinder_neg_imp_cube_neg _ h1
    rw [locals_cube_d] at h2
    linarith
  obtain ⟨hs2, hs3⟩ := small_spheres_pos
    (SDF_scene_locals Real.sqrt Real.cos Real.sin p t).rotated_pos
    (by rw [locals_rotated_pos_norm_sq]; exact hp2)
  rw [← locals_sphere2_d] at hs2
  rw [← locals_sphere3_d] at hs3
  rw [scene_distance, locals_d5, locals_d4, locals_d3, locals_d2]
  simp only [min_lt_iff]
  constructor
  · rintro ((((h | h) | h) | h) | h)
    · exact absurd h hcyl
    · linarith
    · exact h
    · linarith
    · linarith
  · intro h
    exact Or.inl (Or.inl (Or.inr h))

/-- Witness for the amended claim C2: the point `(0,0,1/2)` at time 1. -/
theorem SDF_scene_neg_inside_sphere_iff_witness :
    float3.length Real.sqrt ⟨0, 0, 1 / 2⟩ < 1.2 ∧
    ((SDF_scene Real.sqrt Real.cos Real.sin ⟨0, 0, 1 / 2⟩ 1).distance < 0 ↔
      (SDF_scene_locals Real.sqrt Real.cos Real.sin ⟨0, 0, 1 / 2⟩ 1).cube2_d < 0) :=
  ⟨by rw [float3_length_z_axis, abs_of_pos (by norm_num)]; norm_num,
    SDF_scene_neg_inside_sphere_iff ⟨0, 0, 1 / 2⟩ 1
      (by rw [float3_length_z_axis, abs_of_pos (by norm_num)]; norm_num)⟩

/-- Claim C6, refuted as stated: at the scene centre at time 0 the distance
that `SDF_scene` returns is `-0.35`, while the composition that the
specification names evaluates to `0.3` on the same six primitive distances. -/
theorem SDF_scene_center_ne_composition_spec :
    (SDF_scene Real.sqrt Real.cos Real.sin ⟨0, 0, 0⟩ 0).distance ≠
      scene_composition_spec
        (SDF_scene_locals Real.sqrt Real.cos Real.sin ⟨0, 0, 0⟩ 0).cube_d
        (SDF_scene_locals Real.sqrt Real.cos Real.sin ⟨0, 0, 0⟩ 0).sphere_d
        (SDF_scene_locals Real.sqrt Real.cos Real.sin ⟨0, 0, 0⟩ 0).cylinder_d
        (SDF_scene_locals Real.sqrt Real.cos Real.sin ⟨0, 0, 0⟩ 0).cube2_d
        (SDF_scene_locals Real.sqrt Real.cos Real.sin ⟨0, 0, 0⟩ 0).sphere2_d
        (SDF_scene_locals Real.sqrt Real.cos Real.sin ⟨0, 0, 0⟩ 0).sphere3_d := by
  obtain ⟨h1, h2, h3, h4, h5, h6⟩ := locals_z_axis 0
  rw [scene_distance_origin, h1, h2, h3, h4, h5, h6]
  simp only [scene_composition_spec, SDF_union, SDF_intersection, SDF_difference]
  norm_num

/-- Claim C6, amended: for every point and time the distance that `SDF_scene`
returns is the union of "box minus sphere", "cylinder intersect
box-complement", the whole small box, and the two small spheres; the
difference "small box minus cylinder" is not part of it.  Equivalently it is
the union of the specification's composition with the whole small box, so it
never exceeds that composition. -/
theorem SDF_scene_distance_composition (sqrt cos sin : α → α) (p : float3 α) (t : α) :
    (SDF_scene sqrt cos sin p t).distance =
      SDF_union
        (SDF_union
          (SDF_union
            (SDF_union
              (SDF_intersection (SDF_scene_locals sqrt cos sin p t).cylinder_d
                (-(SDF_scene_locals sqrt cos sin p t).cube_d))
              (SDF_difference (SDF_scene_locals sqrt cos sin p t).cube_d
                (SDF_scene_locals sqrt cos sin p t).sphere_d))
            (SDF_scene_locals sqrt cos sin p t).cube2_d)
          (SDF_scene_locals sqrt cos sin p t).sphere2_d)
        (SDF_scene_locals sqrt cos sin p t).sphere3_d ∧
    (SDF_scene sqrt cos sin p t).distance =
      SDF_union
        (scene_composition_spec
          (SDF_scene_locals sqrt cos sin p t).cube_d
          (SDF_scene_locals sqrt cos sin p t).sphere_d
          (SDF_scene_locals sqrt cos sin p t).cylinder_d
          (SDF_scene_locals sqrt cos sin p t).cube2_d
          (SDF_scene_locals sqrt cos sin p t).sphere2_d
          (SDF_scene_locals sqrt cos sin p t).sphere3_d)
        (SDF_scene_locals sqrt cos sin p t).cube2_d := by
  refine ⟨rfl, ?_⟩
  rw [scene_distance, locals_d5, locals_d4, locals_d3, locals_d2, locals_d1]
  simp only [scene_composition_spec, SDF_union, SDF_intersection, SDF_difference]
  generalize (SDF_scene_locals sqrt cos sin p t).cube_d = a
  generalize (SDF_scene_locals sqrt cos sin p t).sphere_d = b
  generalize (SDF_scene_locals sqrt cos sin p t).cylinder_d = c
  generalize (SDF_scene_locals sqrt cos sin p t).cube2_d = e
  generalize (SDF_scene_locals sqrt cos sin p t).sphere2_d = f
  generalize (SDF_scene_locals sqrt cos sin p t).sphere3_d = g
  have hle : e ≤ max e (-c) := le_max_left _ _
  apply le_antisymm
  · simp only [le_min_iff, min_le_iff, le_refl, true_or, or_true, and_self, and_true, true_and]
    left; left; right; exact hle
  · simp only [le_min_iff, min_le_iff, le_refl, true_or, or_true, and_self, and_true, true_and]

/-- Claim C7, refuted as stated: at the scene centre at time 0 the operand
`intersection(cylinder_d, -cube_d)` of the cylinder step is strictly smaller
than the running distance, and the colour carried after that step is not the
cylinder's colour. -/
theorem SDF_scene_cylinder_step_not_closer_wins :
    SDF_intersection (SDF_scene_locals Real.sqrt Real.cos Real.sin ⟨0, 0, 0⟩ 0).cylinder_d
        (-(SDF_scene_locals Real.sqrt Real.cos Real.sin ⟨0, 0, 0⟩ 0).cube_d) <
      (SDF_scene_locals Real.sqrt Real.cos Real.sin ⟨0, 0, 0⟩ 0).d1 ∧
    (SDF_scene_locals Real.sqrt Real.cos Real.sin ⟨0, 0, 0⟩ 0).color2 ≠ rgb 70 230 80 := by
  obtain ⟨h1, h2, h3, h4, h5, h6⟩ := locals_z_axis 0
  obtain ⟨c1, c2⟩ := locals_z_axis_colors 0
  rw [locals_color2, locals_color1, locals_d1, h1, h2, h3, c1]
  simp only [SDF_intersection]
  norm_num [rgb]

/-- Claim C7, amended: the colour is threaded through the combination steps by
the tests that `SDF_scene` performs.  After the cylinder step the carried
colour is the cylinder's colour exactly when `cylinder_d < cube_d` (a
comparison of the two raw primitive distances).  When the small box's colour
is taken (`tmp_d < d`), the small box is also the strictly closer operand of
its union step, and otherwise the colour is kept.  At the two small-sphere
steps the closer-wins rule holds for the step's own operands: the distance and
the colour are both the sphere's when the sphere is strictly closer, and both
are kept otherwise. -/
theorem SDF_scene_color_threading (sqrt cos sin : α → α) (p : float3 α) (t : α) :
    ((SDF_scene_locals sqrt cos sin p t).color2 = rgb 70 230 80 ↔
      (SDF_scene_locals sqrt cos sin p t).cylinder_d <
        (SDF_scene_locals sqrt cos sin p t).cube_d) ∧
    ((SDF_scene_locals sqrt cos sin p t).tmp_d < (SDF_scene_locals sqrt cos sin p t).d2 →
      (SDF_scene_locals sqrt cos sin p t).color3 =
          (SDF_scene_locals sqrt cos sin p t).cube2_color ∧
        (SDF_scene_locals sqrt cos sin p t).d3 = (SDF_scene_locals sqrt cos sin p t).cube2_d ∧
        (SDF_scene_locals sqrt cos sin p t).cube2_d <
          (SDF_scene_locals sqrt cos sin p t).d2) ∧
    (¬ (SDF_scene_locals sqrt cos sin p t).tmp_d < (SDF_scene_locals sqrt cos sin p t).d2 →
      (SDF_scene_locals sqrt cos sin p t).color3 = (SDF_scene_locals sqrt cos sin p t).color2) ∧
    ((SDF_scene_locals sqrt cos sin p t).sphere2_d < (SDF_scene_locals sqrt cos sin p t).d3 →
      (SDF_scene_locals sqrt cos sin p t).color4 = rgb 0 255 255 ∧
        (SDF_scene_locals sqrt cos sin p t).d4 =
          (SDF_scene_locals sqrt cos sin p t).sphere2_d) ∧
    (¬ (SDF_scene_locals sqrt cos sin p t).sphere2_d < (SDF_scene_locals sqrt cos sin p t).d3 →
      (SDF_scene_locals sqrt cos sin p t).color4 = (SDF_scene_locals sqrt cos sin p t).color3 ∧
        (SDF_scene_locals sqrt cos sin p t).d4 = (SDF_scene_locals sqrt cos sin p t).d3) ∧
    ((SDF_scene_locals sqrt cos sin p t).sphere3_d < (SDF_scene_locals sqrt cos sin p t).d4 →
      (SDF_scene_locals sqrt cos sin p t).color5 = rgb 255 0 255 ∧
        (SDF_scene_locals sqrt cos sin p t).d5 =
          (SDF_scene_locals sqrt cos sin p t).sphere3_d) ∧
    (¬ (SDF_scene_locals sqrt cos sin p t).sphere3_d < (SDF_scene_locals sqrt cos sin p t).d4 →
      (SDF_scene_locals sqrt cos sin p t).color5 = (SDF_scene_locals sqrt cos sin p t).color4 ∧
        (SDF_scene_locals sqrt cos sin p t).d5 = (SDF_scene_locals sqrt cos sin p t).d4) := by
  refine ⟨?_, ?_, ?_, ?_, ?_, ?_, ?_⟩
  · rw [locals_color2]
    constructor
    · intro h
      by_contra hc
      rw [if_neg hc, locals_color1] at h
      split_ifs at h
      · simp [rgb] at h
      · rw [locals_color_cube] at h
        exact face2rgb_ne_cylinder_color _ _ h
    · intro h
      rw [if_pos h]
  · intro h
    have hlt : (SDF_scene_locals sqrt cos sin p t).cube2_d <
        (SDF_scene_locals sqrt cos sin p t).d2 :=
      lt_of_le_of_lt (by rw [locals_tmp_d]; exact le_max_left _ _) h
    rw [locals_color3, if_pos h, locals_d3]
    exact ⟨rfl, min_eq_right hlt.le, hlt⟩
  · intro h
    rw [locals_color3, if_neg h]
  · intro h
    rw [locals_color4, if_pos h, locals_d4]
    exact ⟨rfl, min_eq_right h.le⟩
  · intro h
    rw [locals_color4, if_neg h, locals_d4]
    exact ⟨rfl, min_eq_left (not_lt.mp h)⟩
  · intro h
    rw [locals_color5, if_pos h, locals_d5]
    exact ⟨rfl, min_eq_right h.le⟩
  · intro h
    rw [locals_color5, if_neg h, locals_d5]
    exact ⟨rfl, min_eq_left (not_lt.mp h)⟩

/-- In exact real arithmetic `SDF_sphere` is the Euclidean signed distance: for
every point `p`, centre `c` and radius `r`, adding the radius back to
`SDF_sphere(p, c, r)` gives the Euclidean distance between `p` and `c` (also in
absolute value), and `SDF_sphere(p, c, r)` is negative exactly when that
distance is below `r`.  The first two parts need the subtraction to be exact. -/
theorem SDF_sphere_exact (p c : float3 ℝ) (r : ℝ) :
    SDF_sphere Real.sqrt p c r + r =
      dist ((WithLp.equiv 2 (Fin 3 → ℝ)).symm ![p.x, p.y, p.z] : EuclideanSpace ℝ (Fin 3))
        ((WithLp.equiv 2 (Fin 3 → ℝ)).symm ![c.x, c.y, c.z]) ∧
    |SDF_sphere Real.sqrt p c r + r| =
      dist ((WithLp.equiv 2 (Fin 3 → ℝ)).symm ![p.x, p.y, p.z] : EuclideanSpace ℝ (Fin 3))
        ((WithLp.equiv 2 (Fin 3 → ℝ)).symm ![c.x, c.y, c.z]) ∧
    (SDF_sphere Real.sqrt p c r < 0 ↔
      dist ((WithLp.equiv 2 (Fin 3 → ℝ)).symm ![p.x, p.y, p.z] : EuclideanSpace ℝ (Fin 3))
        ((WithLp.equiv 2 (Fin 3 → ℝ)).symm ![c.x, c.y, c.z]) < r) := by
  have h : SDF_sphere Real.sqrt p c r + r =
      dist ((WithLp.equiv 2 (Fin 3 → ℝ)).symm ![p.x, p.y, p.z] : EuclideanSpace ℝ (Fin 3))
        ((WithLp.equiv 2 (Fin 3 → ℝ)).symm ![c.x, c.y, c.z]) := by
    rw [EuclideanSpace.dist_eq]
    simp only [SDF_sphere, float3.length, float3_sub_def, Fin.sum_univ_three, Real.dist_eq,
      sq_abs, WithLp.equiv_symm_pi_apply, Matrix.cons_val_zero, Matrix.cons_val_one,
      Matrix.head_cons, Matrix.cons_val_two, Matrix.tail_cons, sub_add_cancel]
    congr 1
    ring
  refine ⟨h, ?_, ?_⟩
  · rw [h]
    exact abs_of_nonneg dist_nonneg
  · rw [← h]
    constructor <;> intro h1 <;> linarith

/-- Claim C9: for every colour with components in `[0, 255]`, `get_color`
returns the id of a palette entry whose Euclidean distance to the colour is
minimal over all sixteen entries, and every entry before it in table order is
strictly farther, so that among the entries at minimal distance it is the
first one. -/
theorem get_color_nearest_first (c : float3 ℝ) (hx0 : 0 ≤ c.x) (hx1 : c.x ≤ 255)
    (hy0 : 0 ≤ c.y) (hy1 : c.y ≤ 255) (hz0 : 0 ≤ c.z) (hz1 : c.z ≤ 255) :
    (palette : List (term_color ℝ)).length = 16 ∧
    ∃ i : Fin (palette : List (term_color ℝ)).length,
      get_color Real.sqrt c = ((palette : List (term_color ℝ)).get i).curses_color ∧
      (∀ j : Fin (palette : List (term_color ℝ)).length,
        palette_dist Real.sqrt c (palette.get i) ≤ palette_dist Real.sqrt c (palette.get j)) ∧
      (∀ j : Fin (palette : List (term_color ℝ)).length, j < i →
        palette_dist Real.sqrt c (palette.get i) < palette_dist Real.sqrt c (palette.get j)) := by
  refine ⟨rfl, ?_⟩
  obtain ⟨pre, e, post, hl, hres, hpre, hpost⟩ :=
    get_color_first_min c ⟨rgb 12 12 12, COLOR_BLACK⟩ (by simp [palette])
      (palette_dist_first_lt c hx0 hx1 hy0 hy1 hz0 hz1)
  obtain ⟨i, hi, hbefore⟩ := index_of_split _ pre post e hl
  refine ⟨i, by rw [hi, hres], ?_, ?_⟩
  · intro j
    rw [hi]
    have hj : (palette : List (term_color ℝ)).get j ∈ pre ++ e :: post := by
      rw [← hl]
      exact List.get_mem _ _ _
    rcases List.mem_append.mp hj with h | h
    · exact (hpre _ h).le
    · rcases List.mem_cons.mp h with h | h
      · rw [h]
      · exact hpost _ h
  · intro j hj
    rw [hi]
    exact hpre _ (hbefore j hj)

/-- Witness for claim C9: the colour `rgb(70, 80, 230)` of the central sphere. -/
theorem get_color_nearest_first_witness :
    (palette : List (term_color ℝ)).length = 16 ∧
    ∃ i : Fin (palette : List (term_color ℝ)).length,
      get_color Real.sqrt (rgb 70 80 230) =
        ((palette : List (term_color ℝ)).get i).curses_color ∧
      (∀ j : Fin (palette : List (term_color ℝ)).length,
        palette_dist Real.sqrt (rgb 70 80 230) (palette.get i) ≤
          palette_dist Real.sqrt (rgb 70 80 230) (palette.get j)) ∧
      (∀ j : Fin (palette : List (term_color ℝ)).length, j < i →
        palette_dist Real.sqrt (rgb 70 80 230) (palette.get i) <
          palette_dist Real.sqrt (rgb 70 80 230) (palette.get j)) :=
  get_color_nearest_first (rgb 70 80 230) (by norm_num [rgb]) (by norm_num [rgb])
    (by norm_num [rgb]) (by norm_num [rgb]) (by norm_num [rgb]) (by norm_num [rgb])

/-- Claim C10: colour classification is the identity on palette entries.  For
every index `i` of the sixteen-entry table, `get_color` of the colour of entry
`i` is `i`, the curses id of that entry. -/
theorem get_color_palette_identity (i : Fin (palette : List (term_color ℝ)).length) :
    get_color Real.sqrt ((palette : List (term_color ℝ)).get i).rgb_color = (i.val : Int) ∧
    ((palette : List (term_color ℝ)).get i).curses_color = (i.val : Int) := by
  have hmem : (palette : List (term_color ℝ)).get i ∈ (palette : List (term_color ℝ)) :=
    List.get_mem _ _ _
  have hzero : palette_dist Real.sqrt ((palette : List (term_color ℝ)).get i).rgb_color
      ((palette : List (term_color ℝ)).get i) = 0 := by
    simp [palette_dist, float3.length, float3_sub_def]
  obtain ⟨pre, e, post, hl, hres, hpre, hpost⟩ :=
    get_color_first_min ((palette : List (term_color ℝ)).get i).rgb_color _ hmem
      (by rw [hzero]; norm_num)
  have he : e ∈ (palette : List (term_color ℝ)) := by
    rw [hl]
    simp
  have hle : palette_dist Real.sqrt ((palette : List (term_color ℝ)).get i).rgb_color e ≤ 0 := by
    rw [← hzero]
    have hi : (palette : List (term_color ℝ)).get i ∈ pre ++ e :: post := by
      rw [← hl]
      exact hmem
    rcases List.mem_append.mp hi with h | h
    · exact (hpre _ h).le
    · rcases List.mem_cons.mp h with h | h
      · rw [h]
      · exact hpost _ h
  have hsq := (Real.sqrt_eq_zero'.mp (le_antisymm hle (palette_dist_nonneg _ _)))
  have hrgb : e.rgb_color = ((palette : List (term_color ℝ)).get i).rgb_color := by
    simp only [float3_sub_def] at hsq
    have h1 : ((palette : List (term_color ℝ)).get i).rgb_color.x - e.rgb_color.x = 0 := by
      nlinarith [mul_self_nonneg (((palette : List (term_color ℝ)).get i).rgb_color.x - e.rgb_color.x),
        mul_self_nonneg (((palette : List (term_color ℝ)).get i).rgb_color.y - e.rgb_color.y),
        mul_self_nonneg (((palette : List (term_color ℝ)).get i).rgb_color.z - e.rgb_color.z)]
    have h2 : ((palette : List (term_color ℝ)).get i).rgb_color.y - e.rgb_color.y = 0 := by
      nlinarith [mul_self_nonneg (((palette : List (term_color ℝ)).get i).rgb_color.x - e.rgb_color.x),
        mul_self_nonneg (((palette : List (term_color ℝ)).get i).rgb_color.y - e.rgb_color.y),
        mul_self_nonneg (((palette : List (term_color ℝ)).get i).rgb_color.z - e.rgb_color.z)]
    have h3 : ((palette : List (term_color ℝ)).get i).rgb_color.z - e.rgb_color.z = 0 := by
      nlinarith [mul_self_nonneg (((palette : List (term_color ℝ)).get i).rgb_color.x - e.rgb_color.x),
        mul_self_nonneg (((palette : List (term_color ℝ)).get i).rgb_color.y - e.rgb_color.y),
        mul_self_nonneg (((palette : List (term_color ℝ)).get i).rgb_color.z - e.rgb_color.z)]
    cases hc : e.rgb_color
    cases hd : ((palette : List (term_color ℝ)).get i).rgb_color
    rw [hc, hd] at h1 h2 h3
    simp only [float3.mk.injEq]
    exact ⟨by linarith, by linarith, by linarith⟩
  refine ⟨?_, palette_curses_color i⟩
  rw [hres, palette_rgb_injective e _ he hmem hrgb, palette_curses_color]

/-- Claim C11: `depth2char` is monotone.  With the glyphs ranked in the order
`@ # $ % & * + - .` and blank, a larger depth never gets a glyph of smaller
rank (`MAX_DEPTH` is 10). -/
theorem depth2char_monotone (d1 d2 : α) (h : d1 ≤ d2) :
    glyph_rank (depth2char d1) ≤ glyph_rank (depth2char d2) := by
  have hr : d1 / MAX_DEPTH ≤ d2 / MAX_DEPTH :=
    div_le_div_of_nonneg_right h (by simp [MAX_DEPTH])
  have hlen : ∀ r : α, ((glyph_thresholds : List α).filter (fun th => th ≤ r)).length ≤ 9 :=
    fun r => le_trans (List.length_filter_le _ _) (le_of_eq rfl)
  rw [depth2char_eq_table, depth2char_eq_table, depth2char_table, depth2char_table,
    glyph_rank_getD _ (hlen _), glyph_rank_getD _ (hlen _)]
  exact threshold_count_mono _ _ _ hr

/-- Witness for claim C11: the depths 2 and 7. -/
theorem depth2char_monotone_witness :
    (2 : ℝ) ≤ 7 ∧ glyph_rank (depth2char (2 : ℝ)) ≤ glyph_rank (depth2char (7 : ℝ)) :=
  ⟨by norm_num, depth2char_monotone 2 7 (by norm_num)⟩

/-- Claim C13, refuted as stated: for `pos = (1,1,0)`, centre `(0,0,0)` and
scale `(2,2,2)` the offsets are `d = (0,0,-1)`, so the maximum is attained by
`d.x` and `d.y` together, and `SDF_cube` reports the face `Z_NEG`, not a face
of the x axis. -/
theorem SDF_cube_tie_xy_not_x_face :
    (SDF_cube_offset (⟨1, 1, 0⟩ : float3 ℝ) ⟨0, 0, 0⟩ ⟨2, 2, 2⟩).x =
      (SDF_cube_offset (⟨1, 1, 0⟩ : float3 ℝ) ⟨0, 0, 0⟩ ⟨2, 2, 2⟩).y ∧
    (SDF_cube_offset (⟨1, 1, 0⟩ : float3 ℝ) ⟨0, 0, 0⟩ ⟨2, 2, 2⟩).z <
      (SDF_cube_offset (⟨1, 1, 0⟩ : float3 ℝ) ⟨0, 0, 0⟩ ⟨2, 2, 2⟩).y ∧
    (SDF_cube Real.sqrt ⟨1, 1, 0⟩ ⟨0, 0, 0⟩ ⟨2, 2, 2⟩).closest_face = face.Z_NEG ∧
    (SDF_cube Real.sqrt ⟨1, 1, 0⟩ ⟨0, 0, 0⟩ ⟨2, 2, 2⟩).closest_face ≠ face.X_POS ∧
    (SDF_cube Real.sqrt ⟨1, 1, 0⟩ ⟨0, 0, 0⟩ ⟨2, 2, 2⟩).closest_face ≠ face.X_NEG := by
  have hf : (SDF_cube Real.sqrt ⟨1, 1, 0⟩ ⟨0, 0, 0⟩ ⟨2, 2, 2⟩).closest_face = face.Z_NEG := by
    simp [SDF_cube, float3.abs, float3_sub_def, float3_div_def]
  refine ⟨?_, ?_, hf, ?_, ?_⟩
  · simp [SDF_cube_offset, float3.abs, float3_sub_def, float3_div_def]
  · simp [SDF_cube_offset, float3.abs, float3_sub_def, float3_div_def]
  · rw [hf]; decide
  · rw [hf]; decide

/-- Whenever the maximum of `d.x`, `d.y`, `d.z` is attained by more than one
component, `SDF_cube` reports a face of the z axis, `Z_POS` when `pos.z > 0` and
`Z_NEG` otherwise: both strict tests fail on a tie and the final `else` branch
is taken. -/
theorem SDF_cube_tie_z_face (sqrt : α → α) (pos center scale : float3 α)
    (htie :
      ((SDF_cube_offset pos center scale).x = (SDF_cube_offset pos center scale).y ∧
        (SDF_cube_offset pos center scale).z ≤ (SDF_cube_offset pos center scale).x) ∨
      ((SDF_cube_offset pos center scale).x = (SDF_cube_offset pos center scale).z ∧
        (SDF_cube_offset pos center scale).y ≤ (SDF_cube_offset pos center scale).x) ∨
      ((SDF_cube_offset pos center scale).y = (SDF_cube_offset pos center scale).z ∧
        (SDF_cube_offset pos center scale).x ≤ (SDF_cube_offset pos center scale).y)) :
    (SDF_cube sqrt pos center scale).closest_face =
      if pos.z > 0 then face.Z_POS else face.Z_NEG := by
  have hx : ¬ ((SDF_cube_offset pos center scale).x > (SDF_cube_offset pos center scale).y ∧
      (SDF_cube_offset pos center scale).x > (SDF_cube_offset pos center scale).z) := by
    rintro ⟨h1, h2⟩
    rcases htie with ⟨h, _⟩ | ⟨h, _⟩ | ⟨h, h3⟩
    · exact absurd h (ne_of_gt h1)
    · exact absurd h (ne_of_gt h2)
    · exact absurd h1 (not_lt.mpr h3)
  have hy : ¬ ((SDF_cube_offset pos center scale).y > (SDF_cube_offset pos center scale).x ∧
      (SDF_cube_offset pos center scale).y > (SDF_cube_offset pos center scale).z) := by
    rintro ⟨h1, h2⟩
    rcases htie with ⟨h, _⟩ | ⟨_, h3⟩ | ⟨h, _⟩
    · exact absurd h (ne_of_lt h1)
    · exact absurd h1 (not_lt.mpr h3)
    · exact absurd h (ne_of_gt h2)
  show (if (SDF_cube_offset pos center scale).x > (SDF_cube_offset pos center scale).y ∧
      (SDF_cube_offset pos center scale).x > (SDF_cube_offset pos center scale).z then
      (if pos.x > 0 then face.X_POS else face.X_NEG)
    else if (SDF_cube_offset pos center scale).y > (SDF_cube_offset pos center scale).x ∧
        (SDF_cube_offset pos center scale).y > (SDF_cube_offset pos center scale).z then
      (if pos.y > 0 then face.Y_POS else face.Y_NEG)
    else (if pos.z > 0 then face.Z_POS else face.Z_NEG)) = _
  rw [if_neg hx, if_neg hy]

/-- Claim C16: the box distance never overshoots.  For every point `p`, every
scale `s` with non-negative components, and every point `q` of the closed box
centred at the origin with side lengths `s`, the distance that `SDF_cube`
returns for `p` is at most the Euclidean distance from `p` to `q`. -/
theorem SDF_cube_le_dist (p s q : float3 ℝ)
    (hs : 0 ≤ s.x ∧ 0 ≤ s.y ∧ 0 ≤ s.z)
    (hq : |q.x| ≤ s.x / 2 ∧ |q.y| ≤ s.y / 2 ∧ |q.z| ≤ s.z / 2) :
    (SDF_cube Real.sqrt p ⟨0, 0, 0⟩ s).distance ≤ float3.length Real.sqrt (p - q) := by
  obtain ⟨hqx, hqy, hqz⟩ := hq
  have _hs := hs
  rw [SDF_cube_distance_origin]
  have hin : min (max (|p.x| - s.x / 2) (max (|p.y| - s.y / 2) (|p.z| - s.z / 2))) 0 ≤ 0 :=
    min_le_right _ _
  have hout : Real.sqrt (max (|p.x| - s.x / 2) 0 * max (|p.x| - s.x / 2) 0 +
        max (|p.y| - s.y / 2) 0 * max (|p.y| - s.y / 2) 0 +
        max (|p.z| - s.z / 2) 0 * max (|p.z| - s.z / 2) 0) ≤
      float3.length Real.sqrt (p - q) := by
    simp only [float3.length, float3_sub_def]
    apply Real.sqrt_le_sqrt
    have h1 := clamp_sq_le p.x q.x (s.x / 2) hqx
    have h2 := clamp_sq_le p.y q.y (s.y / 2) hqy
    have h3 := clamp_sq_le p.z q.z (s.z / 2) hqz
    linarith
  linarith

/-- Witness for claim C16: the point `(3,0,0)`, the cube of scale `(2,2,2)` and
its corner `(1,1,1)`. -/
theorem SDF_cube_le_dist_witness :
    ((0 : ℝ) ≤ 2 ∧ (0 : ℝ) ≤ 2 ∧ (0 : ℝ) ≤ 2) ∧
    (|(1 : ℝ)| ≤ 2 / 2 ∧ |(1 : ℝ)| ≤ 2 / 2 ∧ |(1 : ℝ)| ≤ 2 / 2) ∧
    (SDF_cube Real.sqrt ⟨3, 0, 0⟩ ⟨0, 0, 0⟩ ⟨2, 2, 2⟩).distance ≤
      float3.length Real.sqrt ((⟨3, 0, 0⟩ : float3 ℝ) - ⟨1, 1, 1⟩) :=
  ⟨by norm_num, by norm_num,
    SDF_cube_le_dist ⟨3, 0, 0⟩ ⟨2, 2, 2⟩ ⟨1, 1, 1⟩ (by norm_num) (by norm_num)⟩

/-- In exact real arithmetic, with the real cosine and sine, `rotateX`,
`rotateY` and `rotateZ` are proper rotations for every angle: each matrix is
orthogonal with determinant 1, applying it to a vector preserves the Euclidean
length, and at angle 0 each is the identity. -/
theorem rotations_proper (θ : ℝ) (v : float3 ℝ) :
    (Matrix.transpose (rotateX Real.cos Real.sin θ).toMatrix *
        (rotateX Real.cos Real.sin θ).toMatrix = 1 ∧
      Matrix.det (rotateX Real.cos Real.sin θ).toMatrix = 1 ∧
      float3.length Real.sqrt ((rotateX Real.cos Real.sin θ).mulVec v) =
        float3.length Real.sqrt v ∧
      (rotateX Real.cos Real.sin 0).toMatrix = 1 ∧
      (rotateX Real.cos Real.sin 0).mulVec v = v) ∧
    (Matrix.transpose (rotateY Real.cos Real.sin θ).toMatrix *
        (rotateY Real.cos Real.sin θ).toMatrix = 1 ∧
      Matrix.det (rotateY Real.cos Real.sin θ).toMatrix = 1 ∧
      float3.length Real.sqrt ((rotateY Real.cos Real.sin θ).mulVec v) =
        float3.length Real.sqrt v ∧
      (rotateY Real.cos Real.sin 0).toMatrix = 1 ∧
      (rotateY Real.cos Real.sin 0).mulVec v = v) ∧
    (Matrix.transpose (rotateZ Real.cos Real.sin θ).toMatrix *
        (rotateZ Real.cos Real.sin θ).toMatrix = 1 ∧
      Matrix.det (rotateZ Real.cos Real.sin θ).toMatrix = 1 ∧
      float3.length Real.sqrt ((rotateZ Real.cos Real.sin θ).mulVec v) =
        float3.length Real.sqrt v ∧
      (rotateZ Real.cos Real.sin 0).toMatrix = 1 ∧
      (rotateZ Real.cos Real.sin 0).mulVec v = v) := by
  obtain ⟨⟨hx1, hx2⟩, ⟨hy1, hy2⟩, ⟨hz1, hz2⟩⟩ := rotate_zero v
  refine ⟨⟨(rotateX_orthogonal θ).1, (rotateX_orthogonal θ).2, ?_, hx1, hx2⟩,
    ⟨(rotateY_orthogonal θ).1, (rotateY_orthogonal θ).2, ?_, hy1, hy2⟩,
    ⟨(rotateZ_orthogonal θ).1, (rotateZ_orthogonal θ).2, ?_, hz1, hz2⟩⟩
  · simp only [float3.length]
    rw [rotateX_norm_sq]
  · simp only [float3.length]
    rw [rotateY_norm_sq]
  · simp only [float3.length]
    rw [rotateZ_norm_sq]

/-- Claim C18: for every point and time the colour that `SDF_scene` returns is
one of the colours of the palette (a face colour, `rgb(70,80,230)`,
`rgb(70,230,80)`, `rgb(0,255,255)` or `rgb(255,0,255)`), never the initial
`rgb(0,0,0)`, and `get_color` maps it to the id of a palette entry with that
colour, at distance 0. -/
theorem SDF_scene_color_in_palette (p : float3 ℝ) (t : ℝ) :
    (SDF_scene Real.sqrt Real.cos Real.sin p t).color ∈ [rgb 255 0 0, rgb 0 255 0,
      rgb 0 0 255, rgb 255 255 0, rgb 255 0 255, rgb 0 255 255, rgb 70 80 230,
      rgb 70 230 80] ∧
    (SDF_scene Real.sqrt Real.cos Real.sin p t).color ≠ rgb 0 0 0 ∧
    ∃ e ∈ (palette : List (term_color ℝ)),
      e.rgb_color = (SDF_scene Real.sqrt Real.cos Real.sin p t).color ∧
      get_color Real.sqrt (SDF_scene Real.sqrt Real.cos Real.sin p t).color = e.curses_color ∧
      palette_dist Real.sqrt (SDF_scene Real.sqrt Real.cos Real.sin p t).color e = 0 := by
  have hmem := scene_color_mem Real.sqrt Real.cos Real.sin p t
  refine ⟨hmem, ?_, ?_⟩
  · simp only [List.mem_cons, List.mem_singleton, List.not_mem_nil, or_false] at hmem
    rcases hmem with h | h | h | h | h | h | h | h <;> rw [h] <;> simp [rgb]
  · have hex : ∃ e ∈ (palette : List (term_color ℝ)),
        e.rgb_color = (SDF_scene Real.sqrt Real.cos Real.sin p t).color := by
      simp only [List.mem_cons, List.mem_singleton, List.not_mem_nil, or_false] at hmem
      rcases hmem with h | h | h | h | h | h | h | h <;> rw [h]
      · exact ⟨⟨rgb 255 0 0, COLOR_RED⟩, by simp [palette], rfl⟩
      · exact ⟨⟨rgb 0 255 0, COLOR_GREEN⟩, by simp [palette], rfl⟩
      · exact ⟨⟨rgb 0 0 255, COLOR_BLUE⟩, by simp [palette], rfl⟩
      · exact ⟨⟨rgb 255 255 0, COLOR_YELLOW⟩, by simp [palette], rfl⟩
      · exact ⟨⟨rgb 255 0 255, COLOR_MAGENTA⟩, by simp [palette], rfl⟩
      · exact ⟨⟨rgb 0 255 255, COLOR_CYAN⟩, by simp [palette], rfl⟩
      · exact ⟨⟨rgb 70 80 230, COLOR_LIGHT_BLUE⟩, by simp [palette], rfl⟩
      · exact ⟨⟨rgb 70 230 80, COLOR_LIGHT_GREEN⟩, by simp [palette], rfl⟩
    obtain ⟨e, he, hrgb⟩ := hex
    obtain ⟨h1, h2⟩ := get_color_palette_entry e he
    rw [hrgb] at h1 h2
    exact ⟨e, he, hrgb, h1, h2⟩

/-- In exact real arithmetic the cylinder's colour is never selected: the
cylinder's distance is at least the large box's distance at every point, so the
test `cylinder_d < cube_d` of `SDF_scene` fails for every point and time, and
`SDF_scene` never returns `cylinder_color = rgb(70,230,80)`. -/
theorem cylinder_color_never_selected (p : float3 ℝ) (t : ℝ) :
    (∀ q : float3 ℝ, SDF_cylinder Real.sqrt q ⟨0, 0, 0⟩ 2.0 0.3 ≥
      (SDF_cube Real.sqrt q ⟨0, 0, 0⟩ ⟨2, 2, 2⟩).distance) ∧
    ¬ ((SDF_scene_locals Real.sqrt Real.cos Real.sin p t).cylinder_d <
      (SDF_scene_locals Real.sqrt Real.cos Real.sin p t).cube_d) ∧
    (SDF_scene Real.sqrt Real.cos Real.sin p t).color ≠ rgb 70 230 80 := by
  have htest : ¬ ((SDF_scene_locals Real.sqrt Real.cos Real.sin p t).cylinder_d <
      (SDF_scene_locals Real.sqrt Real.cos Real.sin p t).cube_d) := by
    rw [locals_cylinder_d, locals_cube_d]
    exact not_lt.mpr (cube_le_cylinder _)
  refine ⟨fun q => cube_le_cylinder q, htest, ?_⟩
  rcases scene_color_cases Real.sqrt Real.cos Real.sin p t with h | h | h | ⟨_, h⟩ | h | h
  · rw [h]; simp [rgb]
  · rw [h]; simp [rgb]
  · rw [h, locals_cube2_color]; exact face2rgb_ne_cylinder_color _ _
  · exact absurd h htest
  · rw [h]; simp [rgb]
  · rw [h, locals_color_cube]; exact face2rgb_ne_cylinder_color _ _

/-- Claim C15: the per-pixel marching loop.  It completes `k ≤ 50` steps; the
scene is evaluated at the sample points `0 .. k-1`, each with a distance that
is not negative, and, when the loop breaks, once more at sample `k`, where the
distance is negative (so this is the first negative evaluation and at most 50
evaluations are made).  The depth is the sum of the distances of the samples
`0 .. k-1` only, and in both the hit and the miss case the reported colour is
the colour of the last evaluation. -/
theorem march_pixel_spec (sqrt cos sin : α → α) (cam_pos dir : float3 α) (time : α) :
    (march_pixel sqrt cos sin cam_pos dir time).k +
        (if (march_pixel sqrt cos sin cam_pos dir time).hit then 1 else 0) ≤
      MAX_MARCHING_STEPS ∧
    (∀ i, i < (march_pixel sqrt cos sin cam_pos dir time).k →
      ¬ (SDF_scene sqrt cos sin (march_sample sqrt cos sin cam_pos dir time i)
        time).distance < 0) ∧
    ((march_pixel sqrt cos sin cam_pos dir time).hit = true →
      (march_pixel sqrt cos sin cam_pos dir time).k < MAX_MARCHING_STEPS ∧
      (SDF_scene sqrt cos sin (march_sample sqrt cos sin cam_pos dir time
        (march_pixel sqrt cos sin cam_pos dir time).k) time).distance < 0 ∧
      (march_pixel sqrt cos sin cam_pos dir time).color_rgb =
        (SDF_scene sqrt cos sin (march_sample sqrt cos sin cam_pos dir time
          (march_pixel sqrt cos sin cam_pos dir time).k) time).color) ∧
    ((march_pixel sqrt cos sin cam_pos dir time).hit = false →
      (march_pixel sqrt cos sin cam_pos dir time).k = MAX_MARCHING_STEPS ∧
      (march_pixel sqrt cos sin cam_pos dir time).color_rgb =
        (SDF_scene sqrt cos sin (march_sample sqrt cos sin cam_pos dir time
          (MAX_MARCHING_STEPS - 1)) time).color) ∧
    (march_pixel sqrt cos sin cam_pos dir time).depth =
      Finset.sum (Finset.range (march_pixel sqrt cos sin cam_pos dir time).k) (fun i =>
        (SDF_scene sqrt cos sin (march_sample sqrt cos sin cam_pos dir time i)
          time).distance) ∧
    (march_pixel sqrt cos sin cam_pos dir time).r.origin =
      march_sample sqrt cos sin cam_pos dir time
        (march_pixel sqrt cos sin cam_pos dir time).k := by
  obtain ⟨m, hm, hk, _, horg, hdep, hpos, halt⟩ :=
    march_loop_spec sqrt cos sin time MAX_MARCHING_STEPS (march_init cam_pos dir)
  have hk0 : (march_pixel sqrt cos sin cam_pos dir time).k = m := by
    rw [march_pixel, hk]
    exact Nat.zero_add m
  have hd0 : (march_pixel sqrt cos sin cam_pos dir time).depth =
      Finset.sum (Finset.range m) (fun i =>
        (SDF_scene sqrt cos sin (march_sample sqrt cos sin cam_pos dir time i)
          time).distance) := by
    rw [march_pixel, hdep]
    exact zero_add _
  rw [hk0]
  rcases halt with ⟨h1, h2, h3, h4⟩ | ⟨h1, _, h3⟩
  · have hh : (march_pixel sqrt cos sin cam_pos dir time).hit = true := h1
    refine ⟨?_, hpos, fun _ => ⟨h2, h3, h4⟩, ?_, hd0, horg⟩
    · rw [hh]
      exact h2
    · intro hf
      rw [hh] at hf
      exact absurd hf (by decide)
  · obtain ⟨h5, h6⟩ := h3 (by decide)
    have hh : (march_pixel sqrt cos sin cam_pos dir time).hit = false := h5
    refine ⟨?_, hpos, ?_, fun _ => ⟨h1, h6⟩, hd0, horg⟩
    · rw [hh, h1]
      exact le_refl _
    · intro ht
      rw [hh] at ht
      exact absurd ht (by decide)

/-- In exact arithmetic, for every camera position, ray direction and time, the
state after `n` iterations of the inner loop (or after its `break`, if that
came earlier) has a depth that is not negative and not above the depth after
`n + 1` iterations, and its ray origin is `cam_pos + direction * depth` (by
distributivity); `march_pixel` is the state for `n = MAX_MARCHING_STEPS`. -/
theorem march_loop_invariant (sqrt cos sin : α → α) (cam_pos dir : float3 α) (time : α)
    (n : Nat) :
    0 ≤ (march_loop sqrt cos sin time n (march_init cam_pos dir)).depth ∧
    (march_loop sqrt cos sin time n (march_init cam_pos dir)).depth ≤
      (march_loop sqrt cos sin time (n + 1) (march_init cam_pos dir)).depth ∧
    (march_loop sqrt cos sin time n (march_init cam_pos dir)).r.origin =
      cam_pos + dir * (march_loop sqrt cos sin time n (march_init cam_pos dir)).depth ∧
    march_pixel sqrt cos sin cam_pos dir time =
      march_loop sqrt cos sin time MAX_MARCHING_STEPS (march_init cam_pos dir) := by
  have hinit : (march_init cam_pos dir).r.origin =
      cam_pos + dir * (march_init cam_pos dir).depth := by
    cases cam_pos
    simp [march_init, float3_add_def, float3_mul_def]
  obtain ⟨h1, h2, h3⟩ := march_loop_inv sqrt cos sin time cam_pos dir n
    (march_init cam_pos dir) rfl hinit (le_refl _)
  refine ⟨h3, ?_, h2, rfl⟩
  rw [march_loop_succ sqrt cos sin time n (march_init cam_pos dir) rfl]
  split_ifs
  · exact le_refl _
  · exact (march_body_inv sqrt cos sin time cam_pos dir _ h1 h2 h3).2.2.2

/-- Claim C5: the ray with origin `(0,0,-5)` and direction `(0,0,1)` at time 0
reaches a hit within the 50-step budget.  On binary32 values, with any `cos`
and `sin` that give `cos 0 = 1` and `sin 0 = 0`, the inner loop of
`ray_marching` is left by its `break` at step index `k = 1 < 50`: the first
evaluation gives `2.7000000477`, and the evaluation at the origin reached by
that step gives a distance below zero. -/
theorem march_center_ray_hits (cos sin : f32 → f32) (hc : cos 0 = 1) (hs : sin 0 = 0) :
    (march_pixel_f32 cos sin ⟨0, 0, -5⟩ ⟨0, 0, 1⟩ 0).hit = true ∧
    (march_pixel_f32 cos sin ⟨0, 0, -5⟩ ⟨0, 0, 1⟩ 0).k = 1 ∧
    (march_pixel_f32 cos sin ⟨0, 0, -5⟩ ⟨0, 0, 1⟩ 0).k < MAX_MARCHING_STEPS ∧
    (march_pixel_f32 cos sin ⟨0, 0, -5⟩ ⟨0, 0, 1⟩ 0).depth = ⟨90596968 * 2 ^ 124⟩ ∧
    (SDF_scene_f32 cos sin (march_pixel_f32 cos sin ⟨0, 0, -5⟩ ⟨0, 0, 1⟩ 0).r.origin
      0).distance < 0 := by
  have hp : march_pixel_f32 cos sin ⟨0, 0, -5⟩ ⟨0, 0, 1⟩ 0 =
      march_pixel_f32 (fun _ => 1) (fun _ => 0) ⟨0, 0, -5⟩ ⟨0, 0, 1⟩ 0 :=
    march_loop_f32_time_zero cos sin hc hs _ _
  have heta : ∀ v : float3 f32, v = ⟨v.x, v.y, v.z⟩ := fun _ => rfl
  have ho : (march_pixel_f32 (fun _ => 1) (fun _ => 0) ⟨0, 0, -5⟩ ⟨0, 0, 1⟩ 0).r.origin =
      ⟨0, 0, ⟨-(9646899 * 2 ^ 127)⟩⟩ :=
    (heta _).trans (by
      rw [march_center_ray_f32_origin_x, march_center_ray_f32_origin_y,
        march_center_ray_f32_origin_z])
  have hneg : (⟨-(2 ^ 125)⟩ : f32) < 0 := by decide!
  rw [hp, SDF_scene_f32_time_zero cos sin hc hs, ho, march_center_ray_f32_distance,
    march_center_ray_f32_k]
  exact ⟨march_center_ray_f32_hit, rfl, by decide, march_center_ray_f32_depth, hneg⟩

/-- Witness for claim C5: `cos` and `sin` that are constantly `1` and `0`. -/
theorem march_center_ray_hits_witness :
    (fun _ : f32 => (1 : f32)) 0 = 1 ∧ (fun _ : f32 => (0 : f32)) 0 = 0 ∧
    (march_pixel_f32 (fun _ => 1) (fun _ => 0) ⟨0, 0, -5⟩ ⟨0, 0, 1⟩ 0).hit = true ∧
    (march_pixel_f32 (fun _ => 1) (fun _ => 0) ⟨0, 0, -5⟩ ⟨0, 0, 1⟩ 0).k = 1 :=
  ⟨rfl, rfl, (march_center_ray_hits (fun _ => 1) (fun _ => 0) rfl rfl).1,
    (march_center_ray_hits (fun _ => 1) (fun _ => 0) rfl rfl).2.1⟩

/-- Claim C13, amended: `SDF_cube` resolves every tie of the maximum in favour
of the z axis.  Whenever the maximum of `d.x`, `d.y`, `d.z` is attained by more
than one component, the face is `Z_POS` when `pos.z > 0` and `Z_NEG` otherwise;
a face of the x axis is reported exactly when `d.x` is strictly above both other
components, and a face of the y axis exactly when `d.y` is. -/
theorem SDF_cube_face_selection (sqrt : α → α) (pos center scale : float3 α) :
    ((((SDF_cube_offset pos center scale).x = (SDF_cube_offset pos center scale).y ∧
          (SDF_cube_offset pos center scale).z ≤ (SDF_cube_offset pos center scale).x) ∨
        ((SDF_cube_offset pos center scale).x = (SDF_cube_offset pos center scale).z ∧
          (SDF_cube_offset pos center scale).y ≤ (SDF_cube_offset pos center scale).x) ∨
        ((SDF_cube_offset pos center scale).y = (SDF_cube_offset pos center scale).z ∧
          (SDF_cube_offset pos center scale).x ≤ (SDF_cube_offset pos center scale).y)) →
      (SDF_cube sqrt pos center scale).closest_face =
        if pos.z > 0 then face.Z_POS else face.Z_NEG) ∧
    (((SDF_cube sqrt pos center scale).closest_face = face.X_POS ∨
        (SDF_cube sqrt pos center scale).closest_face = face.X_NEG) ↔
      ((SDF_cube_offset pos center scale).x > (SDF_cube_offset pos center scale).y ∧
        (SDF_cube_offset pos center scale).x > (SDF_cube_offset pos center scale).z)) ∧
    (((SDF_cube sqrt pos center scale).closest_face = face.Y_POS ∨
        (SDF_cube sqrt pos center scale).closest_face = face.Y_NEG) ↔
      ((SDF_cube_offset pos center scale).y > (SDF_cube_offset pos center scale).x ∧
        (SDF_cube_offset pos center scale).y > (SDF_cube_offset pos center scale).z)) := by
  have hf : (SDF_cube sqrt pos center scale).closest_face =
      (if (SDF_cube_offset pos center scale).x > (SDF_cube_offset pos center scale).y ∧
          (SDF_cube_offset pos center scale).x > (SDF_cube_offset pos center scale).z then
        (if pos.x > 0 then face.X_POS else face.X_NEG)
      else if (SDF_cube_offset pos center scale).y > (SDF_cube_offset pos center scale).x ∧
          (SDF_cube_offset pos center scale).y > (SDF_cube_offset pos center scale).z then
        (if pos.y > 0 then face.Y_POS else face.Y_NEG)
      else (if pos.z > 0 then face.Z_POS else face.Z_NEG)) := rfl
  refine ⟨SDF_cube_tie_z_face sqrt pos center scale, ?_, ?_⟩
  · rw [hf]
    by_cases hx : (SDF_cube_offset pos center scale).x > (SDF_cube_offset pos center scale).y ∧
        (SDF_cube_offset pos center scale).x > (SDF_cube_offset pos center scale).z
    · rw [if_pos hx]
      refine ⟨fun _ => hx, fun _ => ?_⟩
      split_ifs
      · exact Or.inl rfl
      · exact Or.inr rfl
    · rw [if_neg hx]
      refine ⟨fun h => ?_, fun h => absurd h hx⟩
      split_ifs at h <;> rcases h with h | h <;> exact absurd h (by decide)
  · rw [hf]
    by_cases hx : (SDF_cube_offset pos center scale).x > (SDF_cube_offset pos center scale).y ∧
        (SDF_cube_offset pos center scale).x > (SDF_cube_offset pos center scale).z
    · rw [if_pos hx]
      refine ⟨fun h => ?_, fun h => absurd hx.1 (lt_asymm h.1)⟩
      split_ifs at h <;> rcases h with h | h <;> exact absurd h (by decide)
    · rw [if_neg hx]
      by_cases hy : (SDF_cube_offset pos center scale).y > (SDF_cube_offset pos center scale).x ∧
          (SDF_cube_offset pos center scale).y > (SDF_cube_offset pos center scale).z
      · rw [if_pos hy]
        refine ⟨fun _ => hy, fun _ => ?_⟩
        split_ifs
        · exact Or.inl rfl
        · exact Or.inr rfl
      · rw [if_neg hy]
        refine ⟨fun h => ?_, fun h => absurd h hy⟩
        split_ifs at h <;> rcases h with h | h <;> exact absurd h (by decide)

/-- Witness for the amended claim C13: `pos = (1,1,0)`, centre `(0,0,0)`, scale
`(2,2,2)`, where `d.x = d.y = 0 > d.z = -1`. -/
theorem SDF_cube_face_selection_witness :
    ((SDF_cube_offset (⟨1, 1, 0⟩ : float3 ℝ) ⟨0, 0, 0⟩ ⟨2, 2, 2⟩).x =
        (SDF_cube_offset (⟨1, 1, 0⟩ : float3 ℝ) ⟨0, 0, 0⟩ ⟨2, 2, 2⟩).y ∧
      (SDF_cube_offset (⟨1, 1, 0⟩ : float3 ℝ) ⟨0, 0, 0⟩ ⟨2, 2, 2⟩).z ≤
        (SDF_cube_offset (⟨1, 1, 0⟩ : float3 ℝ) ⟨0, 0, 0⟩ ⟨2, 2, 2⟩).x) ∧
    (SDF_cube Real.sqrt ⟨1, 1, 0⟩ ⟨0, 0, 0⟩ ⟨2, 2, 2⟩).closest_face =
      if (0 : ℝ) > 0 then face.Z_POS else face.Z_NEG :=
  ⟨by simp [SDF_cube_offset, float3.abs, float3_sub_def, float3_div_def],
    (SDF_cube_face_selection Real.sqrt ⟨1, 1, 0⟩ ⟨0, 0, 0⟩ ⟨2, 2, 2⟩).1
      (Or.inl (by simp [SDF_cube_offset, float3.abs, float3_sub_def, float3_div_def]))⟩

/-- Claim C17, refuted as stated: with the binary32 values nearest to `cos 1`
and `sin 1` (`9064768 / 2^24` and `14117540 / 2^24`) as the stored `c` and `s`,
the matrix that `rotateX` builds for the angle 1 has a determinant that is not
1 and is not orthogonal: `c*c + s*s` is `1 - 7.9e-8`. -/
theorem rotateX_stored_values_not_proper :
    Matrix.det (rotateX (fun _ : ℚ => 9064768 / 16777216)
      (fun _ : ℚ => 14117540 / 16777216) 1).toMatrix ≠ 1 ∧
    Matrix.transpose (rotateX (fun _ : ℚ => 9064768 / 16777216)
        (fun _ : ℚ => 14117540 / 16777216) 1).toMatrix *
      (rotateX (fun _ : ℚ => 9064768 / 16777216)
        (fun _ : ℚ => 14117540 / 16777216) 1).toMatrix ≠ 1 := by
  have h := (rotate_det_orthogonal (fun _ : ℚ => 9064768 / 16777216)
    (fun _ : ℚ => 14117540 / 16777216) 1).1
  have hne : (9064768 / 16777216 : ℚ) * (9064768 / 16777216) +
      (14117540 / 16777216) * (14117540 / 16777216) ≠ 1 := by norm_num
  refine ⟨?_, fun ho => hne (h.2.mp ho)⟩
  rw [h.1]
  exact hne

/-- Claim C17, amended: for the stored values `c = cos θ` and `s = sin θ`, each
of the matrices of `rotateX`, `rotateY` and `rotateZ` has the determinant
`c*c + s*s` and is orthogonal exactly when `c*c + s*s = 1`; and where `cos`
gives 1 and `sin` gives 0, as at the angle 0, each is the identity matrix and
maps every vector to itself. -/
theorem rotations_proper_iff (cos sin : α → α) (θ : α) (v : float3 α) :
    ((Matrix.det (rotateX cos sin θ).toMatrix = cos θ * cos θ + sin θ * sin θ ∧
        (Matrix.transpose (rotateX cos sin θ).toMatrix * (rotateX cos sin θ).toMatrix = 1 ↔
          cos θ * cos θ + sin θ * sin θ = 1)) ∧
      (Matrix.det (rotateY cos sin θ).toMatrix = cos θ * cos θ + sin θ * sin θ ∧
        (Matrix.transpose (rotateY cos sin θ).toMatrix * (rotateY cos sin θ).toMatrix = 1 ↔
          cos θ * cos θ + sin θ * sin θ = 1)) ∧
      (Matrix.det (rotateZ cos sin θ).toMatrix = cos θ * cos θ + sin θ * sin θ ∧
        (Matrix.transpose (rotateZ cos sin θ).toMatrix * (rotateZ cos sin θ).toMatrix = 1 ↔
          cos θ * cos θ + sin θ * sin θ = 1))) ∧
    (cos θ = 1 → sin θ = 0 →
      ((rotateX cos sin θ).toMatrix = 1 ∧ (rotateX cos sin θ).mulVec v = v) ∧
      ((rotateY cos sin θ).toMatrix = 1 ∧ (rotateY cos sin θ).mulVec v = v) ∧
      ((rotateZ cos sin θ).toMatrix = 1 ∧ (rotateZ cos sin θ).mulVec v = v)) :=
  ⟨rotate_det_orthogonal cos sin θ, fun hc hs => rotate_identity cos sin θ hc hs v⟩

/-- Witness for the amended claim C17: the angle 0 with the real cosine and
sine, applied to the vector `(1, 2, 3)`. -/
theorem rotations_proper_iff_witness :
    Real.cos 0 = 1 ∧ Real.sin 0 = 0 ∧
    (rotateX Real.cos Real.sin 0).toMatrix = 1 ∧
    (rotateY Real.cos Real.sin 0).mulVec (⟨1, 2, 3⟩ : float3 ℝ) = ⟨1, 2, 3⟩ :=
  ⟨Real.cos_zero, Real.sin_zero,
    ((rotations_proper_iff Real.cos Real.sin 0 ⟨1, 2, 3⟩).2 Real.cos_zero Real.sin_zero).1.1,
    ((rotations_proper_iff Real.cos Real.sin 0 ⟨1, 2, 3⟩).2 Real.cos_zero
      Real.sin_zero).2.1.2⟩

/-- Claim C20, refuted as stated: on binary32 values the ray origin is not
`cam_pos + direction * depth`.  For the first pixel of a frame at time 0
(`cam_pos = (0,0,-5)`, direction `(0,0,1) + (-0.5,-0.5,0)`) the loop has not
left after two iterations, the depth is `4.0910425` and the origin has
`z = -0.90895724`, while `cam_pos + direction * depth` has `z = -0.90895748`. -/
theorem march_f32_origin_ne_cam_pos_plus_depth :
    (march_loop_f32 (fun _ => 1) (fun _ => 0) 0 2
      ⟨0, 0, ⟨⟨0, 0, -5⟩, ⟨-(f32.lit 1 2), -(f32.lit 1 2), 1⟩⟩, ⟨0, 0, 0⟩, false⟩).k = 2 ∧
    (march_loop_f32 (fun _ => 1) (fun _ => 0) 0 2
      ⟨0, 0, ⟨⟨0, 0, -5⟩, ⟨-(f32.lit 1 2), -(f32.lit 1 2), 1⟩⟩, ⟨0, 0, 0⟩, false⟩).hit = false ∧
    (march_loop_f32 (fun _ => 1) (fun _ => 0) 0 2
      ⟨0, 0, ⟨⟨0, 0, -5⟩, ⟨-(f32.lit 1 2), -(f32.lit 1 2), 1⟩⟩, ⟨0, 0, 0⟩, false⟩).depth =
        ⟨4289769 * 2 ^ 129⟩ ∧
    (march_loop_f32 (fun _ => 1) (fun _ => 0) 0 2
      ⟨0, 0, ⟨⟨0, 0, -5⟩, ⟨-(f32.lit 1 2), -(f32.lit 1 2), 1⟩⟩, ⟨0, 0, 0⟩, false⟩).r.origin.z =
        ⟨-(3812443 * 2 ^ 127)⟩ ∧
    (((⟨0, 0, -5⟩ : float3 f32) + (⟨-(f32.lit 1 2), -(f32.lit 1 2), 1⟩ : float3 f32) *
      (⟨4289769 * 2 ^ 129⟩ : f32)).z = ⟨-(953111 * 2 ^ 129)⟩) ∧
    (march_loop_f32 (fun _ => 1) (fun _ => 0) 0 2
      ⟨0, 0, ⟨⟨0, 0, -5⟩, ⟨-(f32.lit 1 2), -(f32.lit 1 2), 1⟩⟩, ⟨0, 0, 0⟩, false⟩).r.origin.z ≠
      (((⟨0, 0, -5⟩ : float3 f32) + (⟨-(f32.lit 1 2), -(f32.lit 1 2), 1⟩ : float3 f32) *
        (march_loop_f32 (fun _ => 1) (fun _ => 0) 0 2
          ⟨0, 0, ⟨⟨0, 0, -5⟩, ⟨-(f32.lit 1 2), -(f32.lit 1 2), 1⟩⟩, ⟨0, 0, 0⟩, false⟩).depth).z) := by
  decide!

/-- Claim C20, amended: the marching-loop invariant.  For every camera
position, ray direction and time, the state after `n` iterations of the inner
loop (or after its `break`, if that came earlier) has completed `k ≤ n` steps;
the direction is unchanged; the ray origin is the `k`-th sample point, reached
from `cam_pos` by `k` steps `origin + direction * distance`; the depth is the
sum of the `k` distances that were returned at the earlier sample points, none
of which was below zero; and the next iteration leaves the depth as it is or
adds to it the distance at the current origin, which is then not below zero.
`march_pixel` is the state for `n = MAX_MARCHING_STEPS`. -/
theorem march_loop_samples_invariant (sqrt cos sin : α → α) (cam_pos dir : float3 α)
    (time : α) (n : Nat) :
    (march_loop sqrt cos sin time n (march_init cam_pos dir)).k ≤ n ∧
    (march_loop sqrt cos sin time n (march_init cam_pos dir)).r.direction = dir ∧
    (march_loop sqrt cos sin time n (march_init cam_pos dir)).r.origin =
      march_sample sqrt cos sin cam_pos dir time
        (march_loop sqrt cos sin time n (march_init cam_pos dir)).k ∧
    (march_loop sqrt cos sin time n (march_init cam_pos dir)).depth =
      Finset.sum (Finset.range (march_loop sqrt cos sin time n (march_init cam_pos dir)).k)
        (fun i => (SDF_scene sqrt cos sin (march_sample sqrt cos sin cam_pos dir time i)
          time).distance) ∧
    (∀ i, i < (march_loop sqrt cos sin time n (march_init cam_pos dir)).k →
      ¬ (SDF_scene sqrt cos sin (march_sample sqrt cos sin cam_pos dir time i)
        time).distance < 0) ∧
    ((march_loop sqrt cos sin time (n + 1) (march_init cam_pos dir)).depth =
        (march_loop sqrt cos sin time n (march_init cam_pos dir)).depth ∨
      (¬ (SDF_scene sqrt cos sin
          (march_loop sqrt cos sin time n (march_init cam_pos dir)).r.origin time).distance < 0 ∧
        (march_loop sqrt cos sin time (n + 1) (march_init cam_pos dir)).depth =
          (march_loop sqrt cos sin time n (march_init cam_pos dir)).depth +
            (SDF_scene sqrt cos sin
              (march_loop sqrt cos sin time n (march_init cam_pos dir)).r.origin
              time).distance)) ∧
    march_pixel sqrt cos sin cam_pos dir time =
      march_loop sqrt cos sin time MAX_MARCHING_STEPS (march_init cam_pos dir) := by
  obtain ⟨m, hm, hk, hdir, horg, hdep, hpos, _⟩ :=
    march_loop_spec sqrt cos sin time n (march_init cam_pos dir)
  have hk0 : (march_loop sqrt cos sin time n (march_init cam_pos dir)).k = m := by
    rw [hk]
    exact Nat.zero_add m
  have hd0 : (march_loop sqrt cos sin time n (march_init cam_pos dir)).depth =
      Finset.sum (Finset.range m) (fun i =>
        (SDF_scene sqrt cos sin (march_sample sqrt cos sin cam_pos dir time i)
          time).distance) := by
    rw [hdep]
    exact zero_add _
  refine ⟨by rw [hk0]; exact hm, hdir, by rw [hk0]; exact horg, by rw [hk0]; exact hd0,
    by rw [hk0]; exact hpos, ?_, rfl⟩
  rw [march_loop_succ sqrt cos sin time n (march_init cam_pos dir) rfl]
  split_ifs
  · exact Or.inl rfl
  · by_cases hD : (SDF_scene sqrt cos sin
        (march_loop sqrt cos sin time n (march_init cam_pos dir)).r.origin time).distance < 0
    · rw [march_body_hit sqrt cos sin time _ hD]
      exact Or.inl rfl
    · rw [march_body_step sqrt cos sin time _ hD]
      exact Or.inr ⟨hD, rfl⟩

end RayMarching
